import Mathlib

/-!
# Verification of the LegalDocument document-management service

A shallow embedding, in Lean 4, of the parts of the repository
(`app.py`, `models.py`, `routes/*.py`, `utils/helpers.py`) that the
frozen claims address: SHA-256 content hashing, the audit log, the
upload / download / delete / verify document endpoints, authentication,
the redaction and timeline text processors, and the analysis endpoints.

Conventions of the embedding:
* Python byte strings are `List Nat` (each entry < 256); text is
  `String` / `List Char`.
* `datetime.utcnow()` is a tick counter `St.now : Nat`; all calls within
  one request observe the same tick.  ISO rendering of timestamps is
  represented by the tick itself.
* SQLAlchemy tables are Lean lists kept in insertion order;
  `Query.first()` is `List.find?`; autoincrement primary keys are
  per-table `next_*_id` counters.
* The filesystem is an association list `St.files : path → bytes`.
* Library calls that are not part of the repository (werkzeug password
  hashing, JWT encoding, uuid generation) are modelled by injective
  stand-ins; text extraction from PDF/DOCX files (external libraries,
  `extract_text_from_file`) enters the model as an explicit parameter.
* Python regular-expression matching (`re.finditer` with the fixed
  patterns of the source) is implemented concretely on `List Char`,
  including word-boundary (`\b`) semantics and greedy backtracking,
  restricted to ASCII classification as the tests and fixtures use
  ASCII data.
-/

/-! ## Character classification (ASCII restriction of Python's `re` classes) -/

/-- Python `\d` on ASCII input: a decimal digit. -/
def isDigitCh (c : Char) : Bool := c.isDigit

/-- Python `\w` on ASCII input: letter, digit or underscore. -/
def isWordCh (c : Char) : Bool := c.isAlphanum || c == '_'

/-- Word-ness of an optional character; out-of-string counts as non-word,
exactly as Python's `\b` treats the ends of the subject string. -/
def wordOpt : Option Char → Bool
  | none => false
  | some c => isWordCh c

/-- Python `\b`: a word boundary between an optional previous character and
an optional current character. -/
def boundaryB (prev cur : Option Char) : Bool := wordOpt prev != wordOpt cur

/-! ## List-of-characters utilities shared by the embedding -/

/-- `p` occurs as a contiguous substring of `s`. -/
def InfixOf (p s : List Char) : Prop := ∃ x y, s = x ++ p ++ y

/-- `p` is a prefix of `s` (as a proposition). -/
def PfxOf (p s : List Char) : Prop := ∃ y, s = p ++ y

/-- Boolean prefix test. -/
def isPfx : List Char → List Char → Bool
  | [], _ => true
  | _ :: _, [] => false
  | p :: ps, c :: cs => p == c && isPfx ps cs

/-- Boolean substring test (used for Python's `x in s` on strings). -/
def containsSubB (p : List Char) : List Char → Bool
  | [] => isPfx p []
  | c :: cs => isPfx p (c :: cs) || containsSubB p cs

/-- Python `str.replace(g, m)`: replace every non-overlapping occurrence of
`g`, scanning from the left.  Guarded against the empty pattern (the source
never replaces an empty match); the fuel argument makes the recursion
structural, `pyReplace` supplies enough fuel for the scan to finish. -/
def pyReplaceAux (g m : List Char) : Nat → List Char → List Char
  | 0, s => s
  | _ + 1, [] => []
  | fuel + 1, c :: cs =>
    if g.length = 0 then c :: cs
    else if isPfx g (c :: cs) then m ++ pyReplaceAux g m fuel ((c :: cs).drop g.length)
    else c :: pyReplaceAux g m fuel cs

def pyReplace (s g m : List Char) : List Char :=
  pyReplaceAux g m (s.length + 1) s

/-- Python `str.strip()` on ASCII whitespace. -/
def pyStrip (s : List Char) : List Char :=
  (s.dropWhile Char.isWhitespace).reverse.dropWhile Char.isWhitespace |>.reverse

/-- Python `str.lower()` on ASCII. -/
def pyLower (s : List Char) : List Char := s.map Char.toLower

/-- `str.strip().lower()` packaged on `String` (kernel-reducible). -/
def stripLower (s : String) : String := String.mk (pyLower (pyStrip s.toList))

/-- `re.split(r'[X]+', text)` for a class of separator characters: splits on
maximal runs of separators, keeping (possibly empty) pieces at both ends.
The accumulator holds the current piece reversed; the fuel argument makes
the recursion structural, `splitRuns` supplies enough for the scan. -/
def splitRunsAux (isSep : Char → Bool) : Nat → List Char → List Char → List (List Char)
  | 0, acc, _ => [acc.reverse]
  | _ + 1, acc, [] => [acc.reverse]
  | fuel + 1, acc, c :: cs =>
    if isSep c then acc.reverse :: splitRunsAux isSep fuel [] (cs.dropWhile isSep)
    else splitRunsAux isSep fuel (c :: acc) cs

def splitRuns (isSep : Char → Bool) (s : List Char) : List (List Char) :=
  splitRunsAux isSep (s.length + 1) [] s

/-! ## SHA-256 (`hashlib.sha256(...).hexdigest()`)

Implemented from FIPS 180-4 over `Nat` with explicit `% 2^32` reduction.
The round constants are derived, as the standard defines them, from the
fractional parts of the square roots (initial hash) and cube roots (round
constants) of the first primes, so they are correct by construction. -/

def w32 (n : Nat) : Nat := n % 4294967296

def rotr32 (x n : Nat) : Nat := w32 ((x >>> n) ||| (x <<< (32 - n)))

/-- The first 64 primes, whose roots seed SHA-256. -/
def sha256Primes : List Nat :=
  [2, 3, 5, 7, 11, 13, 17, 19, 23, 29, 31, 37, 41, 43, 47, 53,
   59, 61, 67, 71, 73, 79, 83, 89, 97, 101, 103, 107, 109, 113, 127, 131,
   137, 139, 149, 151, 157, 163, 167, 173, 179, 181, 191, 193, 197, 199, 211, 223,
   227, 229, 233, 239, 241, 251, 257, 263, 269, 271, 277, 281, 283, 293, 307, 311]

/-- Integer cube root by bisection (fuel-bounded; 130 halvings cover every
operand the derivation uses). -/
def cbrtAux (n : Nat) : Nat → Nat → Nat → Nat
  | 0, lo, _ => lo
  | fuel + 1, lo, hi =>
    if hi ≤ lo + 1 then lo
    else
      let mid := (lo + hi) / 2
      if mid * mid * mid ≤ n then cbrtAux n fuel mid hi else cbrtAux n fuel lo mid

def icbrt (n : Nat) : Nat := cbrtAux n 130 0 (n + 1)

/-- Integer square root by bisection (fuel-bounded, kernel-reducible). -/
def sqrtAux (n : Nat) : Nat → Nat → Nat → Nat
  | 0, lo, _ => lo
  | fuel + 1, lo, hi =>
    if hi ≤ lo + 1 then lo
    else
      let mid := (lo + hi) / 2
      if mid * mid ≤ n then sqrtAux n fuel mid hi else sqrtAux n fuel lo mid

def isqrt (n : Nat) : Nat := sqrtAux n 130 0 (n + 1)

/-- First 32 bits of the fractional part of `√p`. -/
def fracSqrt (p : Nat) : Nat := isqrt (p * 2 ^ 64) % 2 ^ 32

/-- First 32 bits of the fractional part of `∛p`. -/
def fracCbrt (p : Nat) : Nat := icbrt (p * 2 ^ 96) % 2 ^ 32

/-- SHA-256 initial hash value `H⁽⁰⁾`. -/
def sha256H0 : List Nat := (sha256Primes.take 8).map fracSqrt

/-- SHA-256 round constants `K`. -/
def sha256K : List Nat := sha256Primes.map fracCbrt

def bnot32 (x : Nat) : Nat := x ^^^ 4294967295

def chFn (x y z : Nat) : Nat := (x &&& y) ^^^ (bnot32 x &&& z)

def majFn (x y z : Nat) : Nat := (x &&& y) ^^^ (x &&& z) ^^^ (y &&& z)

def bigSigma0 (x : Nat) : Nat := rotr32 x 2 ^^^ rotr32 x 13 ^^^ rotr32 x 22

def bigSigma1 (x : Nat) : Nat := rotr32 x 6 ^^^ rotr32 x 11 ^^^ rotr32 x 25

def smallSigma0 (x : Nat) : Nat := rotr32 x 7 ^^^ rotr32 x 18 ^^^ (x >>> 3)

def smallSigma1 (x : Nat) : Nat := rotr32 x 17 ^^^ rotr32 x 19 ^^^ (x >>> 10)

/-- `k` big-endian bytes of `n`, most significant first. -/
def toBytesBE (k n : Nat) : List Nat :=
  (List.range k).map fun i => (n >>> (8 * (k - 1 - i))) % 256

/-- SHA-256 padding: `0x80`, zeros to 56 mod 64, then the bit length in 8
big-endian bytes. -/
def padMessage (msg : List Nat) : List Nat :=
  let L := msg.length
  let zeros := (64 - (L + 9) % 64) % 64
  msg ++ [128] ++ List.replicate zeros 0 ++ toBytesBE 8 (L * 8)

/-- Split into 64-byte chunks (fuel-bounded structural recursion). -/
def chunks64 : Nat → List Nat → List (List Nat)
  | 0, _ => []
  | _ + 1, [] => []
  | fuel + 1, l => l.take 64 :: chunks64 fuel (l.drop 64)

/-- The 16 initial 32-bit words of a chunk, big-endian. -/
def chunkWords (c : List Nat) : List Nat :=
  (List.range 16).map fun i =>
    c.getD (4 * i) 0 * 16777216 + c.getD (4 * i + 1) 0 * 65536 +
      c.getD (4 * i + 2) 0 * 256 + c.getD (4 * i + 3) 0

/-- Extend the message schedule by `k` further words. -/
def schedule : List Nat → Nat → List Nat
  | ws, 0 => ws
  | ws, k + 1 =>
    let i := ws.length
    schedule
      (ws ++ [w32 (ws.getD (i - 16) 0 + smallSigma0 (ws.getD (i - 15) 0) +
        ws.getD (i - 7) 0 + smallSigma1 (ws.getD (i - 2) 0))]) k

/-- Working state of the compression function. -/
structure Hash8 where
  a : Nat
  b : Nat
  c : Nat
  d : Nat
  e : Nat
  f : Nat
  g : Nat
  h : Nat

def sha256Round (st : Hash8) (kw : Nat × Nat) : Hash8 :=
  let t1 := w32 (st.h + bigSigma1 st.e + chFn st.e st.f st.g + kw.1 + kw.2)
  let t2 := w32 (bigSigma0 st.a + majFn st.a st.b st.c)
  ⟨w32 (t1 + t2), st.a, st.b, st.c, w32 (st.d + t1), st.e, st.f, st.g⟩

def compressChunk (H : List Nat) (chunk : List Nat) : List Nat :=
  let ws := schedule (chunkWords chunk) 48
  let s0 : Hash8 := ⟨H.getD 0 0, H.getD 1 0, H.getD 2 0, H.getD 3 0,
    H.getD 4 0, H.getD 5 0, H.getD 6 0, H.getD 7 0⟩
  let s := (sha256K.zip ws).foldl sha256Round s0
  [w32 (H.getD 0 0 + s.a), w32 (H.getD 1 0 + s.b), w32 (H.getD 2 0 + s.c),
   w32 (H.getD 3 0 + s.d), w32 (H.getD 4 0 + s.e), w32 (H.getD 5 0 + s.f),
   w32 (H.getD 6 0 + s.g), w32 (H.getD 7 0 + s.h)]

def hexDigitCh (n : Nat) : Char :=
  "0123456789abcdef".toList.getD n '0'

/-- Eight lowercase hex digits of a 32-bit word. -/
def hex8 (n : Nat) : List Char :=
  (List.range 8).map fun i => hexDigitCh ((n >>> (4 * (7 - i))) % 16)

/-- `hashlib.sha256(bytes).hexdigest()`. -/
def sha256Hex (msg : List Nat) : String :=
  let padded := padMessage msg
  let final := (chunks64 (padded.length + 1) padded).foldl compressChunk sha256H0
  String.mk (final.foldl (fun acc w => acc ++ hex8 w) [])

/-! ## JSON values (response bodies and audit `details` payloads)

`jsonify` bodies and the `details` dictionaries passed to
`log_audit_event` are represented structurally; `json.dumps` of a details
dictionary is represented by the dictionary itself. -/

inductive JVal where
  | null : JVal
  | bool (b : Bool) : JVal
  | nat (n : Nat) : JVal
  | int (i : Int) : JVal
  | str (s : String) : JVal
  | arr (xs : List JVal) : JVal
  | obj (xs : List (String × JVal)) : JVal

abbrev JObj := List (String × JVal)

/-- An HTTP response: status code plus JSON object body.  `send_file`
responses carry the sent path under the key `"send_file"`. -/
structure Resp where
  status : Nat
  body : JObj

/-! ## The data model (`models.py`) -/

/-- `models.User`. -/
structure UserRec where
  id : Nat
  username : String
  email : String
  password_hash : String
  role : String
  is_active : Bool
  created_at : Option Nat
  last_login : Option Nat

/-- `models.Document`. -/
structure DocumentRec where
  id : Nat
  filename : String
  original_filename : String
  file_path : String
  file_size : Nat
  file_type : String
  content_hash : String
  uploaded_at : Option Nat
  user_id : Nat
  case_number : String
  tags : String
  description : String
  is_processed : Bool
  processing_status : String

/-- `models.DocumentSummary`.  `confidence_score` and `processing_time`
are float columns; they are carried in tenths (`0.8` ↦ `8`) and the
elapsed wall-clock time of a request is modelled as `0`. -/
structure SummaryRec where
  id : Nat
  document_id : Nat
  summary_type : String
  content : String
  confidence_score : Nat
  created_at : Option Nat
  processing_time : Nat

/-- `models.DocumentRedaction`.  `mstart`/`mend` embed the
`start_position`/`end_position` columns. -/
structure RedactionRec where
  id : Nat
  document_id : Nat
  redaction_type : String
  start_position : Nat
  end_position : Nat
  original_text : String
  redacted_text : String
  reason : String
  created_at : Option Nat
  applied_by : Option Nat

/-- `models.DocumentTimeline`.  `event_date` is the parsed date encoded
as `year*10000 + month*100 + day` (this encoding is ordered exactly as
`datetime` dates are). -/
structure TimelineRec where
  id : Nat
  document_id : Nat
  event_date : Nat
  event_type : String
  event_description : String
  page_number : Option Nat
  confidence_score : Nat
  extracted_at : Option Nat

/-- `models.AuditLog`. -/
structure AuditLogRec where
  id : Nat
  user_id : Option Nat
  action : String
  resource_type : String
  resource_id : Option String
  details : Option JObj
  ip_address : Option String
  user_agent : Option String
  timestamp : Option Nat
  session_id : Option String

/-- `models.ChatAnalysis`.  The `analysis_result` JSON text column is
represented by the `sentiment_score` / `keywords` / `entities` columns
it duplicates; `sentiment_score` is in tenths as an `Int`. -/
structure ChatRec where
  id : Nat
  user_id : Nat
  chat_content : String
  sentiment_score : Int
  keywords : List String
  entities : List (String × String)
  content_hash : String
  created_at : Option Nat
  processing_time : Nat

/-- The whole server state: the database tables in insertion order, the
autoincrement counters, the upload directory's filesystem, the tick
counter standing for `datetime.utcnow()`, the uuid source, the request
context (`request.remote_addr`, user agent, session header) and the
`MAX_CONTENT_LENGTH` configuration. -/
structure St where
  users : List UserRec
  documents : List DocumentRec
  summaries : List SummaryRec
  redactions : List RedactionRec
  timelines : List TimelineRec
  audit_logs : List AuditLogRec
  chats : List ChatRec
  files : List (String × List Nat)
  next_user_id : Nat
  next_doc_id : Nat
  next_summary_id : Nat
  next_redaction_id : Nat
  next_timeline_id : Nat
  next_audit_id : Nat
  next_chat_id : Nat
  now : Nat
  uuid_counter : Nat
  req_ip : Option String
  req_user_agent : Option String
  req_session_id : Option String
  max_content_length : Nat

/-- `User.query.get(user_id)`. -/
def findUser (st : St) (user_id : Nat) : Option UserRec :=
  st.users.find? fun u => u.id == user_id

/-- `os.path.exists` / reading a file of the secure upload directory. -/
def getFile (files : List (String × List Nat)) (path : String) : Option (List Nat) :=
  (files.find? fun e => e.1 == path).map Prod.snd

/-- `file.save(path)`: write (or overwrite) a file. -/
def setFile (files : List (String × List Nat)) (path : String) (content : List Nat) :
    List (String × List Nat) :=
  if (files.find? fun e => e.1 == path).isSome then
    files.map fun e => if e.1 == path then (path, content) else e
  else files ++ [(path, content)]

/-- `os.remove(path)`. -/
def delFile (files : List (String × List Nat)) (path : String) : List (String × List Nat) :=
  files.filter fun e => !(e.1 == path)

/-- `Document.calculate_hash` (models.py): SHA-256 hex digest of the bytes. -/
def DocumentRec.calculate_hash (_ : DocumentRec) (file_content : List Nat) : String :=
  sha256Hex file_content

/-- `Document.verify_integrity` (models.py). -/
def DocumentRec.verify_integrity (d : DocumentRec) (file_content : List Nat) : Bool :=
  d.content_hash == d.calculate_hash file_content

/-- `Document.to_dict` (models.py); timestamps rendered as their tick. -/
def DocumentRec.to_dict (d : DocumentRec) : JVal :=
  .obj [("id", .nat d.id), ("filename", .str d.filename),
    ("original_filename", .str d.original_filename), ("file_size", .nat d.file_size),
    ("file_type", .str d.file_type), ("content_hash", .str d.content_hash),
    ("uploaded_at", match d.uploaded_at with | some t => .nat t | none => .null),
    ("user_id", .nat d.user_id), ("case_number", .str d.case_number),
    ("tags", .str d.tags), ("description", .str d.description),
    ("is_processed", .bool d.is_processed), ("processing_status", .str d.processing_status)]

/-- `User.to_dict` (models.py). -/
def UserRec.to_dict (u : UserRec) : JVal :=
  .obj [("id", .nat u.id), ("username", .str u.username), ("email", .str u.email),
    ("role", .str u.role), ("is_active", .bool u.is_active),
    ("created_at", match u.created_at with | some t => .nat t | none => .null),
    ("last_login", match u.last_login with | some t => .nat t | none => .null)]

/-- `werkzeug.security.generate_password_hash`, modelled as an injective
tagging (the library's salted PBKDF2 hash is outside the repository). -/
def generate_password_hash (password : String) : String := "pbkdf2$" ++ password

/-- `werkzeug.security.check_password_hash`, matching the model above. -/
def check_password_hash (pw_hash password : String) : Bool :=
  pw_hash == generate_password_hash password

/-- `User.check_password` (models.py). -/
def UserRec.check_password (u : UserRec) (password : String) : Bool :=
  check_password_hash u.password_hash password

/-- `flask_jwt_extended.create_access_token`, modelled as an opaque token
carrying the identity (the JWT library is outside the repository). -/
def create_access_token (identity : Nat) : String := "jwt$" ++ toString identity

/-! ## Regular-expression matchers (`re.finditer` with the source's patterns)

Each pattern of the source is implemented as a matcher that attempts a
match at one position: it receives the character before the position (for
`\b`) and the rest of the subject, and returns the matched text.  The
greedy/backtracking behaviour of Python's engine on these particular
patterns is reproduced; design notes justify each simplification. -/

def Matcher := Option Char → List Char → Option (List Char)

/-- `\d{n}` : exactly `n` digits, returning them and the rest. -/
def takeDigits : Nat → List Char → Option (List Char × List Char)
  | 0, cs => some ([], cs)
  | _ + 1, [] => none
  | n + 1, c :: cs =>
    if isDigitCh c then (takeDigits n cs).map fun dr => (c :: dr.1, dr.2) else none

/-- Length of the maximal run of class characters at the head. -/
def runLen (cls : Char → Bool) : List Char → Nat
  | [] => 0
  | c :: cs => if cls c then runLen cls cs + 1 else 0

/-- The fixed SSN shape `\d{3}-\d{2}-\d{4}` over 11 characters. -/
def ssnShape (l : List Char) : Bool :=
  l.length == 11 && (List.range 11).all fun i =>
    if i == 3 || i == 6 then l.getD i ' ' == '-' else isDigitCh (l.getD i ' ')

/-- `r'\b\d{3}-\d{2}-\d{4}\b'` (the `'ssn'` pattern).  The first matched
character is a digit, so the leading `\b` demands a non-word predecessor;
the trailing `\b` demands a non-word (or absent) successor. -/
def ssnAt : Matcher := fun prev cs =>
  if wordOpt prev then none
  else
    let g := cs.take 11
    if ssnShape g && !wordOpt ((cs.drop 11).head?) then some g else none

/-- `([sep]?\d{n})*` tails with a final `\b`, with Python's greedy order:
each optional separator is tried present first, absent second. -/
def sepGroups (sepCls : Char → Bool) : List Nat → List Char → List Char → Option (List Char)
  | [], acc, cs => if wordOpt cs.head? then none else some acc
  | n :: ns, acc, cs =>
    (match cs with
     | c :: r =>
       if sepCls c then
         (takeDigits n r).bind fun dr => sepGroups sepCls ns (acc ++ c :: dr.1) dr.2
       else none
     | [] => none) <|>
    ((takeDigits n cs).bind fun dr => sepGroups sepCls ns (acc ++ dr.1) dr.2)

/-- `r'\b\d{3}[-.]?\d{3}[-.]?\d{4}\b'` (the `'phone'` pattern). -/
def phoneAt : Matcher := fun prev cs =>
  if wordOpt prev then none
  else (takeDigits 3 cs).bind fun dr =>
    sepGroups (fun c => c == '-' || c == '.') [3, 4] dr.1 dr.2

/-- `r'\b\d{4}[-\s]?\d{4}[-\s]?\d{4}[-\s]?\d{4}\b'` (the `'credit_card'`
pattern). -/
def ccAt : Matcher := fun prev cs =>
  if wordOpt prev then none
  else (takeDigits 4 cs).bind fun dr =>
    sepGroups (fun c => c == '-' || c.isWhitespace) [4, 4, 4] dr.1 dr.2

/-- The local-part class `[A-Za-z0-9._%+-]` of the `'email'` pattern. -/
def isLocalCh (c : Char) : Bool :=
  c.isAlpha || c.isDigit || c == '.' || c == '_' || c == '%' || c == '+' || c == '-'

/-- The domain class `[A-Za-z0-9.-]` of the `'email'` pattern. -/
def isDomainCh (c : Char) : Bool := c.isAlpha || c.isDigit || c == '.' || c == '-'

/-- The top-level class `[A-Z|a-z]` of the `'email'` pattern (the source's
class literally contains `'|'`). -/
def isTldCh (c : Char) : Bool := c.isAlpha || c == '|'

/-- `[A-Z|a-z]{2,}\b` after the dot: greedy, backtracking from the longest
run down to two characters until the trailing `\b` holds.  `t+1` is the
candidate length; all candidate characters lie in the run by construction. -/
def tldTry (tail : List Char) : Nat → Option Nat
  | 0 => none
  | t + 1 =>
    if t + 1 < 2 then none
    else if boundaryB (some (tail.getD t ' ')) ((tail.drop (t + 1)).head?) then some (t + 1)
    else tldTry tail t

/-- `[A-Za-z0-9.-]+\.[A-Z|a-z]{2,}\b` after the `'@'`: the greedy domain
run backtracks one character at a time looking for a literal `'.'`
followed by a matching top-level part.  `n+1` is the candidate run
length. -/
def domTry (ds : List Char) : Nat → Option Nat
  | 0 => none
  | n + 1 =>
    if ds.getD (n + 1) ' ' == '.' then
      match tldTry (ds.drop (n + 2)) (runLen isTldCh (ds.drop (n + 2))) with
      | some t => some (n + 2 + t)
      | none => domTry ds n
    else domTry ds n

/-- `r'\b[A-Za-z0-9._%+-]+@[A-Za-z0-9.-]+\.[A-Z|a-z]{2,}\b'` (the
`'email'` pattern).  The local part must be the maximal run: a shorter
run would be followed by a local-class character, never `'@'`. -/
def emailAt : Matcher := fun prev cs =>
  match cs with
  | [] => none
  | c0 :: _ =>
    if !boundaryB prev (some c0) then none
    else
      let n1 := runLen isLocalCh cs
      if n1 == 0 then none
      else
        match cs.drop n1 with
        | '@' :: ds =>
          match domTry ds (runLen isDomainCh ds) with
          | some dl => some (cs.take (n1 + 1 + dl))
          | none => none
        | _ => none

/-- `r'\b(\d{1,2})X(\d{1,2})X(\d{4})\b'` for a separator `X` (the
`MM/DD/YYYY` and `MM-DD-YYYY` date patterns).  `\d{1,2}` before a literal
separator matches exactly the digit run when it has length 1 or 2 and
fails on a longer run (both backtracking alternatives would leave a digit
where the separator must be). -/
def take12Digits (cs : List Char) : Option (List Char × List Char) :=
  match cs with
  | [] => none
  | c :: r =>
    if !isDigitCh c then none
    else
      match r with
      | [] => some ([c], r)
      | c2 :: r2 =>
        if !isDigitCh c2 then some ([c], r)
        else
          match r2 with
          | [] => some ([c, c2], r2)
          | c3 :: _ => if isDigitCh c3 then none else some ([c, c2], r2)

def mdyAt (sep : Char) : Matcher := fun prev cs =>
  if wordOpt prev then none
  else
    (take12Digits cs).bind fun mr =>
    match mr.2 with
    | c :: r2 =>
      if c == sep then
        (take12Digits r2).bind fun dr =>
        match dr.2 with
        | c2 :: r4 =>
          if c2 == sep then
            (takeDigits 4 r4).bind fun yr =>
            if wordOpt yr.2.head? then none
            else some (mr.1 ++ [sep] ++ dr.1 ++ [sep] ++ yr.1)
          else none
        | [] => none
      else none
    | [] => none

/-- `r'\b(\d{4}-\d{2}-\d{2})\b'` (the `YYYY-MM-DD` date pattern). -/
def ymdAt : Matcher := fun prev cs =>
  if wordOpt prev then none
  else
    (takeDigits 4 cs).bind fun yr =>
    match yr.2 with
    | c :: r2 =>
      if c == '-' then
        (takeDigits 2 r2).bind fun mr =>
        match mr.2 with
        | c2 :: r4 =>
          if c2 == '-' then
            (takeDigits 2 r4).bind fun dr =>
            if wordOpt dr.2.head? then none
            else some (yr.1 ++ ['-'] ++ mr.1 ++ ['-'] ++ dr.1)
          else none
        | [] => none
      else none
    | [] => none

/-- `r'\b[a-zA-Z]+\b'` (the word pattern of `extract_keywords`): a maximal
letter run whose neighbours are non-word; shorter runs cannot satisfy the
boundaries because their letter neighbours are word characters. -/
def wordRunAt : Matcher := fun prev cs =>
  if wordOpt prev then none
  else
    let n := runLen Char.isAlpha cs
    if n == 0 then none
    else if wordOpt ((cs.drop n).head?) then none
    else some (cs.take n)

/-- `r'\bW\b'` for a literal word `W` (the `password` / `confidential`
sensitive patterns): `W` as a prefix here, with a word boundary on each
side of it. -/
def literalWordAt (w : List Char) : Matcher := fun prev cs =>
  if isPfx w cs && boundaryB prev cs.head? &&
      boundaryB ((cs.drop (w.length - 1)).head?) ((cs.drop w.length).head?)
  then some w else none

/-- `r'\b\d{16}\b'` (the credit-card sensitive pattern). -/
def digits16At : Matcher := fun prev cs =>
  if wordOpt prev then none
  else (takeDigits 16 cs).bind fun dr =>
    if wordOpt dr.2.head? then none else some dr.1

/-- `re.finditer`: all non-overlapping matches, scanning left to right,
with their start positions.  After a match the scan resumes at its end;
the previous character passed on is the last matched character.  The fuel
argument makes the recursion structural; `scanRe` supplies enough fuel
(every step consumes at least one character). -/
def scanAux (mAt : Matcher) : Nat → Option Char → List Char → Nat → List (Nat × List Char)
  | 0, _, _, _ => []
  | _ + 1, _, [], _ => []
  | fuel + 1, prev, c :: cs, pos =>
    match mAt prev (c :: cs) with
    | some g =>
      if g.length == 0 then scanAux mAt fuel (some c) cs (pos + 1)
      else (pos, g) :: scanAux mAt fuel (some (g.getLastD c)) ((c :: cs).drop g.length)
        (pos + g.length)
    | none => scanAux mAt fuel (some c) cs (pos + 1)

def scanRe (mAt : Matcher) (s : List Char) : List (Nat × List Char) :=
  scanAux mAt (s.length + 1) none s 0

/-- `re.search(pattern, s)` as a Boolean. -/
def searchB (mAt : Matcher) (s : List Char) : Bool :=
  !(scanRe mAt s).isEmpty

/-! ## `utils/helpers.py` -/

/-- The special-character class of `validate_password_strength`:
`[!@#$%^&*(),.?":{}|<>]`. -/
def specialChars : List Char := "!@#$%^&*(),.?\":\x7b\x7d|<>".toList

/-- `validate_password_strength` (helpers.py): the chain of early
returns of the source. -/
def validate_password_strength (password : String) : Bool :=
  if password.length < 8 then false
  else if !(password.toList.any fun c => 'A' ≤ c && c ≤ 'Z') then false
  else if !(password.toList.any fun c => 'a' ≤ c && c ≤ 'z') then false
  else if !(password.toList.any isDigitCh) then false
  else if !(password.toList.any fun c => specialChars.contains c) then false
  else true

/-- `log_audit_event` (helpers.py): appends one `AuditLog` row with the
request context and a server-assigned timestamp, then commits.  The
backup write to the process log file has no effect on the state.  In the
model nothing can fail, so the `except` path (swallow and continue) is
never taken. -/
def log_audit_event (st : St) (action resource_type : String)
    (resource_id : Option String) (user_id : Option Nat) (details : Option JObj) : St :=
  { st with
    audit_logs := st.audit_logs ++ [{
      id := st.next_audit_id
      user_id := user_id
      action := action
      resource_type := resource_type
      resource_id := resource_id
      details := details
      ip_address := st.req_ip
      user_agent := st.req_user_agent
      timestamp := some st.now
      session_id := st.req_session_id }]
    next_audit_id := st.next_audit_id + 1 }

/-- `calculate_file_hash` (helpers.py).  The `algorithm` parameter
defaults to `'sha256'` and every call site in the repository uses the
default, so the `md5` and error branches are dead code here. -/
def calculate_file_hash (file_content : List Nat) : String := sha256Hex file_content

/-- The default extension allowlist of `allowed_file` (helpers.py). -/
def default_allowed_extensions : List String :=
  ["pdf", "doc", "docx", "txt", "rtf",
   "mp3", "wav", "mp4", "avi", "mov",
   "jpg", "jpeg", "png", "tiff", "bmp",
   "xls", "xlsx", "csv"]

/-- `filename.rsplit('.', 1)[1]`: the characters after the last dot. -/
def afterLastDot (s : List Char) : List Char :=
  (s.reverse.takeWhile fun c => !(c == '.')).reverse

/-- `allowed_file` (helpers.py) with its default allowlist. -/
def allowed_file (filename : String) : Bool :=
  filename.toList.contains '.' &&
    default_allowed_extensions.contains (String.mk (pyLower (afterLastDot filename.toList)))

/-- `os.path.basename` on POSIX. -/
def basenamePosix (s : List Char) : List Char :=
  (s.reverse.takeWhile fun c => !(c == '/')).reverse

/-- `os.path.splitext`: split at the last dot, unless only dots precede
it. -/
def splitextPy (s : List Char) : List Char × List Char :=
  match s.reverse.findIdx? fun c => c == '.' with
  | none => (s, [])
  | some k =>
    let i := s.length - 1 - k
    if (s.take i).any fun c => !(c == '.') then (s.take i, s.drop i) else (s, [])

/-- `sanitize_filename` (helpers.py): drop path components, replace every
character outside `[\w\s.-]` by `'_'`, cap the length at 255 preserving
the extension. -/
def sanitize_filename (filename : String) : String :=
  let f1 := basenamePosix filename.toList
  let f2 := f1.map fun c =>
    if isWordCh c || c.isWhitespace || c == '.' || c == '-' then c else '_'
  if 255 < f2.length then
    let ne := splitextPy f2
    String.mk (ne.1.take (255 - ne.2.length) ++ ne.2)
  else String.mk f2

/-- `get_file_type` (helpers.py). -/
def get_file_type (filename : String) : String :=
  let ext :=
    if filename.toList.contains '.' then String.mk (afterLastDot (pyLower filename.toList))
    else ""
  if ["pdf", "doc", "docx", "txt", "rtf"].contains ext then "document"
  else if ["mp3", "wav", "flac", "aac"].contains ext then "audio"
  else if ["mp4", "avi", "mov", "wmv", "mkv"].contains ext then "video"
  else if ["jpg", "jpeg", "png", "gif", "tiff", "bmp"].contains ext then "image"
  else if ["xls", "xlsx", "csv"].contains ext then "spreadsheet"
  else "other"

/-- One entry of the `redactions_made` list of `redact_text`:
`{'type', 'original', 'start', 'end'}` (`start`/`end` as
`mstart`/`mend`). -/
structure RedMade where
  rtype : String
  original : List Char
  mstart : Nat
  mend : Nat

/-- The pattern table of `redact_text`, in the source's (insertion)
order. -/
def redactPatterns : List (String × Matcher) :=
  [("ssn", ssnAt), ("phone", phoneAt), ("email", emailAt), ("credit_card", ccAt)]

/-- One pass of the `for pattern_name, pattern in patterns.items()` loop:
`re.finditer` is taken over the text as it stands when the loop arrives
at this pattern (the iterator ranges over that snapshot, unaffected by
the rebinding of `redacted_text` inside the loop); each match appends a
record with the offsets in the snapshot, and `str.replace` substitutes
every occurrence of the matched text. -/
def applyPat (nm : String) (mAt : Matcher) (marker : List Char) (s : List Char) :
    List Char × List RedMade :=
  let ms := scanRe mAt s
  (ms.foldl (fun cur m => pyReplace cur m.2 marker) s,
   ms.map fun m => ⟨nm, m.2, m.1, m.1 + m.2.length⟩)

/-- `redact_text` (helpers.py).  The `redaction_type` parameter is the
replacement marker (the source's naming).  The `if not text` early
return hands back the bare string (its callers guard empty text and
never reach it); on empty text this model returns the pair `([], [])`,
which the main path produces anyway. -/
def redact_text (text : List Char) (redaction_type : List Char) : List Char × List RedMade :=
  redactPatterns.foldl
    (fun acc pm =>
      let r := applyPat pm.1 pm.2 redaction_type acc.1
      (r.1, acc.2 ++ r.2))
    (text, ([] : List RedMade))

/-- The stop-word set of `extract_keywords` (helpers.py). -/
def stopWords : List String :=
  ["the", "a", "an", "and", "or", "but", "in", "on", "at", "to", "for",
   "of", "with", "by", "from", "up", "about", "into", "through", "during",
   "before", "after", "above", "below", "under", "between", "is", "are",
   "was", "were", "be", "been", "being", "have", "has", "had", "do", "does",
   "did", "will", "would", "could", "should", "may", "might", "must", "can",
   "this", "that", "these", "those", "i", "you", "he", "she", "it", "we", "they"]

/-- `collections.Counter` on a list: counts in first-occurrence order. -/
def countsInOrder (ws : List String) : List (String × Nat) :=
  ws.foldl
    (fun acc w =>
      if acc.any fun e => e.1 == w then
        acc.map fun e => if e.1 == w then (e.1, e.2 + 1) else e
      else acc ++ [(w, 1)])
    []

/-- Stable insertion (descending by count): equal counts keep their
relative order, as `Counter.most_common` does. -/
def insertDesc (e : String × Nat) : List (String × Nat) → List (String × Nat)
  | [] => [e]
  | x :: xs => if e.2 ≤ x.2 then x :: insertDesc e xs else e :: x :: xs

/-- `Counter.most_common(20)`: stable sort by descending count, first 20. -/
def mostCommon20 (counts : List (String × Nat)) : List (String × Nat) :=
  (counts.foldl (fun acc e => insertDesc e acc) []).take 20

/-- `extract_keywords` (helpers.py). -/
def extract_keywords (text : List Char) (min_length : Nat) : List String :=
  let words := (scanRe wordRunAt (pyLower text)).map fun m => String.mk m.2
  let keywords := words.filter fun w => min_length ≤ w.length && !stopWords.contains w
  (mostCommon20 (countsInOrder keywords)).map Prod.fst

/-- `create_chain_of_custody_record` (helpers.py): builds the record and
logs it as an audit event with action `chain_of_custody_<action>`; the
returned dictionary is ignored by every caller, so only the state effect
is modelled. -/
def create_chain_of_custody_record (st : St) (document_id : Nat) (action : String)
    (user_id : Nat) (details : Option JObj) : St :=
  let record : JObj :=
    [("document_id", .nat document_id), ("action", .str action),
     ("user_id", .nat user_id), ("timestamp", .nat st.now),
     ("details", .obj (details.getD []))]
  log_audit_event st ("chain_of_custody_" ++ action) "document"
    (some (toString document_id)) (some user_id) (some record)

/-! ## Text processors (`routes/processing.py`, `routes/analysis.py`) -/

def isLeap (y : Nat) : Bool := y % 4 == 0 && (y % 100 != 0 || y % 400 == 0)

def daysInMonth (y m : Nat) : Nat :=
  if m == 2 then (if isLeap y then 29 else 28)
  else if [4, 6, 9, 11].contains m then 30
  else 31

def digitsToNat (ds : List Char) : Nat :=
  ds.foldl (fun a c => a * 10 + (c.toNat - 48)) 0

/-- A calendar date encoded as `y*10000 + m*100 + d`; the encoding is
ordered exactly as `datetime` dates are for 1- to 4-digit years. -/
def dateCode (y m d : Nat) : Nat := y * 10000 + m * 100 + d

/-- `datetime.strptime(s, '%m<sep>%d<sep>%Y')` on the strings the date
matchers produce: CPython's `%m` and `%d` take one or two digits with
values 1–12 / 1–31, `%Y` exactly four digits; the `datetime` constructor
then enforces a positive year and the day range of the (leap-aware)
month. -/
def parseMDY (sep : Char) (s : List Char) : Option Nat :=
  match splitRuns (fun c => c == sep) s with
  | [ms, dcs, ys] =>
    if ms.all isDigitCh && dcs.all isDigitCh && ys.all isDigitCh &&
        1 ≤ ms.length && ms.length ≤ 2 && 1 ≤ dcs.length && dcs.length ≤ 2 &&
        ys.length == 4 then
      let m := digitsToNat ms
      let d := digitsToNat dcs
      let y := digitsToNat ys
      if 1 ≤ m && m ≤ 12 && 1 ≤ d && d ≤ daysInMonth y m && 1 ≤ y then
        some (dateCode y m d)
      else none
    else none
  | _ => none

/-- `datetime.strptime(s, '%Y-%m-%d')` under the same CPython rules. -/
def parseYMD (s : List Char) : Option Nat :=
  match splitRuns (fun c => c == '-') s with
  | [ys, ms, dcs] =>
    if ys.all isDigitCh && ms.all isDigitCh && dcs.all isDigitCh &&
        ys.length == 4 && 1 ≤ ms.length && ms.length ≤ 2 &&
        1 ≤ dcs.length && dcs.length ≤ 2 then
      let y := digitsToNat ys
      let m := digitsToNat ms
      let d := digitsToNat dcs
      if 1 ≤ m && m ≤ 12 && 1 ≤ d && d ≤ daysInMonth y m && 1 ≤ y then
        some (dateCode y m d)
      else none
    else none
  | _ => none

/-- The per-match parse dispatch of `extract_timeline_events_basic`:
`'/' in s` selects `%m/%d/%Y`; otherwise `'-' in s` with exactly ten
characters selects `%Y-%m-%d`; anything else (the named-month branch) is
skipped.  A `ValueError` becomes `none`. -/
def parseDateStr (s : List Char) : Option Nat :=
  if s.contains '/' then parseMDY '/' s
  else if s.contains '-' && s.length == 10 then parseYMD s
  else none

/-- One event of `extract_timeline_events_basic`; confidence in tenths. -/
structure TEvent where
  date : Nat
  description : String
  confidence : Nat

/-- Stable insertion by ascending date (equal dates keep their relative
order, as Python's stable `list.sort` does). -/
def insertTEvent (e : TEvent) : List TEvent → List TEvent
  | [] => [e]
  | x :: xs => if x.date ≤ e.date then x :: insertTEvent e xs else e :: x :: xs

def sortTEvents (evs : List TEvent) : List TEvent :=
  evs.foldl (fun acc e => insertTEvent e acc) []

/-- The sentence separator class `[.!?]` of the processors. -/
def isSentenceSep (c : Char) : Bool := c == '.' || c == '!' || c == '?'

/-- `extract_timeline_events_basic` (processing.py): per stripped
sentence of at least 20 characters, each date pattern contributes the
first of its matches that parses (the `break` leaves only the inner
match loop, so the pattern loop continues).  The named-month pattern's
matches always hit the `continue` branch and never produce an event, so
it is elided; the `MM-DD-YYYY` pattern is kept although no match of it
can parse (its ten-character strings never satisfy `%Y-%m-%d`).  Events
are finally sorted by date (stably). -/
def extract_timeline_events_basic (text : List Char) : List TEvent :=
  let sentences := (splitRuns isSentenceSep text).map pyStrip
  let events := sentences.foldl
    (fun acc s =>
      if s.length < 20 then acc
      else
        [mdyAt '/', mdyAt '-', ymdAt].foldl
          (fun acc2 p =>
            match (scanRe p s).findSome? (fun m => parseDateStr m.2) with
            | some dt => acc2 ++ [⟨dt, String.mk s, 7⟩]
            | none => acc2)
          acc)
    []
  sortTEvents events

/-- `'. '.join(sentences) + '.'`. -/
def joinDot (xs : List (List Char)) : String :=
  String.intercalate ". " (xs.map String.mk) ++ "."

/-- `generate_summary_basic` (processing.py). -/
def generate_summary_basic (text : List Char) (summary_type : String) : String :=
  if text.isEmpty || (pyStrip text).length < 100 then
    "Document too short for meaningful summary."
  else
    let sentences :=
      ((splitRuns isSentenceSep text).map pyStrip).filter fun s => 20 < s.length
    if summary_type == "brief" then joinDot (sentences.take 3)
    else if summary_type == "detailed" then joinDot (sentences.take 10)
    else if summary_type == "key_points" then
      let key_terms := ["important", "significant", "concluded", "determined",
        "found", "evidence", "result"]
      let key_sentences := sentences.filter fun s =>
        key_terms.any fun t => containsSubB t.toList (pyLower s)
      if !key_sentences.isEmpty then joinDot (key_sentences.take 5)
      else joinDot (sentences.take 3)
    else "Summary generation failed."

/-- The result dictionary of `analyze_chat_content_basic`; the sentiment
score is in tenths (`0.2` per word of imbalance, clamped to `±0.8`). -/
structure AnalysisResult where
  sentiment : String
  sentiment_score : Int
  entities : List (String × String)
  keywords : List String
  topics : List String
  urgency_level : String
  contains_sensitive_info : Bool

def positiveWords : List String :=
  ["good", "excellent", "positive", "success", "agree", "satisfied", "happy"]

def negativeWords : List String :=
  ["bad", "terrible", "negative", "failure", "disagree", "unsatisfied", "angry", "problem"]

/-- `analyze_chat_content_basic` (analysis.py). -/
def analyze_chat_content_basic (content : List Char) : AnalysisResult :=
  let lower := pyLower content
  let pc := (positiveWords.filter fun w => containsSubB w.toList lower).length
  let nc := (negativeWords.filter fun w => containsSubB w.toList lower).length
  let sentiment := if nc < pc then "positive" else if pc < nc then "negative" else "neutral"
  let score : Int :=
    if nc < pc then min 8 (((pc - nc) * 2 : Nat) : Int)
    else if pc < nc then max (-8) (-(((nc - pc) * 2 : Nat) : Int))
    else 0
  let keywords := (extract_keywords content 3).take 10
  let emails := (scanRe emailAt content).map fun m => ("email", String.mk m.2)
  let phones := (scanRe phoneAt content).map fun m => ("phone", String.mk m.2)
  let dates := (scanRe (mdyAt '/') content).map fun m => ("date", String.mk m.2)
  let sensitive := searchB ssnAt lower || searchB digits16At lower ||
    searchB (literalWordAt "password".toList) lower ||
    searchB (literalWordAt "confidential".toList) lower
  let urgency :=
    if ["urgent", "emergency", "asap", "immediately", "critical", "deadline"].any
        (fun w => containsSubB w.toList lower) then "high"
    else if ["soon", "priority", "important"].any
        (fun w => containsSubB w.toList lower) then "medium"
    else "low"
  ⟨sentiment, score, emails ++ phones ++ dates, keywords, [], urgency, sensitive⟩

/-- UTF-8 bytes of a character (`str.encode('utf-8')`). -/
def utf8Bytes (c : Char) : List Nat :=
  let n := c.toNat
  if n < 128 then [n]
  else if n < 2048 then [192 + n / 64, 128 + n % 64]
  else if n < 65536 then [224 + n / 4096, 128 + (n / 64) % 64, 128 + n % 64]
  else [240 + n / 262144, 128 + (n / 4096) % 64, 128 + (n / 64) % 64, 128 + n % 64]

def strBytes (s : String) : List Nat :=
  s.toList.foldl (fun acc c => acc ++ utf8Bytes c) []

/-! ## Authentication endpoints (`routes/auth.py`) -/

/-- A JSON error response. -/
def err (status : Nat) (msg : String) : Resp := ⟨status, [("error", .str msg)]⟩

/-- The request body of `/api/auth/register`; absent fields arrive as
empty strings (`data.get(field)` falsy), `role` as `none`. -/
structure RegisterData where
  username : String
  email : String
  password : String
  role : Option String

/-- `register` (auth.py). -/
def register (st : St) (data : RegisterData) : St × Resp :=
  if data.username == "" then (st, err 400 "username is required")
  else if data.email == "" then (st, err 400 "email is required")
  else if data.password == "" then (st, err 400 "password is required")
  else
    let username := stripLower data.username
    let email := stripLower data.email
    if !validate_password_strength data.password then
      (st, err 400 "Password must be at least 8 characters long and contain uppercase, lowercase, number, and special character")
    else if (st.users.find? fun u => u.username == username).isSome then
      (st, err 409 "Username already exists")
    else if (st.users.find? fun u => u.email == email).isSome then
      (st, err 409 "Email already exists")
    else
      let user : UserRec := {
        id := st.next_user_id
        username := username
        email := email
        password_hash := generate_password_hash data.password
        role := data.role.getD "user"
        is_active := true
        created_at := some st.now
        last_login := none }
      let st1 := { st with users := st.users ++ [user], next_user_id := st.next_user_id + 1 }
      let st2 := log_audit_event st1 "user_registered" "user" (some (toString user.id))
        (some user.id) (some [("username", .str username), ("email", .str email)])
      (st2, ⟨201, [("message", .str "User registered successfully"), ("user", user.to_dict)]⟩)

/-- `login` (auth.py).  `username_raw`/`password` are
`data.get('username', '')` / `data.get('password', '')`. -/
def login (st : St) (username_raw password : String) : St × Resp :=
  let username := stripLower username_raw
  if username == "" || password == "" then
    (st, err 400 "Username and password are required")
  else
    match st.users.find? fun u => u.username == username with
    | none =>
      let st1 := log_audit_event st "login_failed" "user" (some username) none
        (some [("reason", .str "invalid_credentials"), ("username", .str username)])
      (st1, err 401 "Invalid credentials")
    | some user =>
      if !user.check_password password then
        let st1 := log_audit_event st "login_failed" "user" (some username) none
          (some [("reason", .str "invalid_credentials"), ("username", .str username)])
        (st1, err 401 "Invalid credentials")
      else if !user.is_active then
        let st1 := log_audit_event st "login_failed" "user" (some (toString user.id))
          (some user.id)
          (some [("reason", .str "inactive_account"), ("username", .str username)])
        (st1, err 401 "Account is inactive")
      else
        let user' := { user with last_login := some st.now }
        let st1 := { st with users := st.users.map fun u =>
          if u.id == user.id then { u with last_login := some st.now } else u }
        let st2 := log_audit_event st1 "login_successful" "user" (some (toString user.id))
          (some user.id) (some [("username", .str username)])
        (st2, ⟨200, [("access_token", .str (create_access_token user.id)),
          ("user", user'.to_dict)]⟩)

/-- `logout` (auth.py): audit-only; the JWT stays valid. -/
def logout (st : St) (user_id : Nat) : St × Resp :=
  match findUser st user_id with
  | some user =>
    let st1 := log_audit_event st "logout" "user" (some (toString user.id)) (some user.id)
      (some [("username", .str user.username)])
    (st1, ⟨200, [("message", .str "Logged out successfully")]⟩)
  | none => (st, ⟨200, [("message", .str "Logged out successfully")]⟩)

/-- `change_password` (auth.py); missing body fields arrive as empty
strings. -/
def change_password (st : St) (user_id : Nat) (current_password new_password : String) :
    St × Resp :=
  match findUser st user_id with
  | none => (st, err 404 "User not found")
  | some user =>
    if current_password == "" || new_password == "" then
      (st, err 400 "Current and new passwords are required")
    else if !user.check_password current_password then
      let st1 := log_audit_event st "password_change_failed" "user" (some (toString user.id))
        (some user.id) (some [("reason", .str "invalid_current_password")])
      (st1, err 401 "Invalid current password")
    else if !validate_password_strength new_password then
      (st, err 400 "New password must be at least 8 characters long and contain uppercase, lowercase, number, and special character")
    else
      let st1 := { st with users := st.users.map fun u =>
        if u.id == user.id then { u with password_hash := generate_password_hash new_password }
        else u }
      let st2 := log_audit_event st1 "password_changed" "user" (some (toString user.id))
        (some user.id) (some [("username", .str user.username)])
      (st2, ⟨200, [("message", .str "Password changed successfully")]⟩)

/-! ## Document endpoints (`routes/documents.py`) -/

/-- An uploaded multipart file: name and raw bytes. -/
structure FileUpload where
  filename : String
  content : List Nat

/-- `Document.query.filter_by(id=document_id, user_id=user_id).first()`. -/
def findOwnedDoc (st : St) (document_id user_id : Nat) : Option DocumentRec :=
  st.documents.find? fun d => d.id == document_id && d.user_id == user_id

/-- `upload_document` (documents.py).  `file = none` models a request
without a `'file'` part.  The `uuid.uuid4()` prefix of the stored name is
modelled by the fresh counter `St.uuid_counter`; the human-readable
maximum size in the over-size message (`format_file_size`, float
formatting) is elided from the message text. -/
def upload_document (st : St) (user_id : Nat) (file : Option FileUpload)
    (case_number description tags : String) : St × Resp :=
  match findUser st user_id with
  | none => (st, err 404 "User not found")
  | some _ =>
    match file with
    | none => (st, err 400 "No file provided")
    | some f =>
      if f.filename == "" then (st, err 400 "No file selected")
      else if !allowed_file f.filename then (st, err 400 "File type not allowed")
      else
        let file_size := f.content.length
        if st.max_content_length < file_size then
          (st, err 400 "File too large")
        else
          let content_hash := calculate_file_hash f.content
          match st.documents.find? fun d => d.content_hash == content_hash with
          | some existing_doc =>
            (st, ⟨409, [("error", .str "File already exists"),
              ("existing_document_id", .nat existing_doc.id)]⟩)
          | none =>
            let sanitized := sanitize_filename f.filename
            let unique_filename := toString st.uuid_counter ++ "_" ++ sanitized
            let file_path := "secure_uploads/" ++ unique_filename
            let document : DocumentRec := {
              id := st.next_doc_id
              filename := unique_filename
              original_filename := f.filename
              file_path := file_path
              file_size := file_size
              file_type := get_file_type f.filename
              content_hash := content_hash
              uploaded_at := some st.now
              user_id := user_id
              case_number := case_number
              tags := tags
              description := description
              is_processed := false
              processing_status := "pending" }
            let st1 := { st with
              files := setFile st.files file_path f.content
              documents := st.documents ++ [document]
              next_doc_id := st.next_doc_id + 1
              uuid_counter := st.uuid_counter + 1 }
            let st2 := create_chain_of_custody_record st1 document.id "uploaded" user_id
              (some [("original_filename", .str f.filename), ("file_size", .nat file_size),
                ("content_hash", .str content_hash)])
            let st3 := log_audit_event st2 "document_uploaded" "document"
              (some (toString document.id)) (some user_id)
              (some [("filename", .str f.filename), ("file_size", .nat file_size),
                ("file_type", .str document.file_type), ("case_number", .str case_number)])
            (st3, ⟨201, [("message", .str "Document uploaded successfully"),
              ("document", document.to_dict)]⟩)

/-- `get_document` (documents.py). -/
def get_document (st : St) (user_id document_id : Nat) : St × Resp :=
  match findUser st user_id with
  | none => (st, err 404 "User not found")
  | some _ =>
    match findOwnedDoc st document_id user_id with
    | none => (st, err 404 "Document not found")
    | some document =>
      let st1 := log_audit_event st "document_accessed" "document"
        (some (toString document_id)) (some user_id)
        (some [("filename", .str document.original_filename)])
      (st1, ⟨200, [("document", document.to_dict)]⟩)

/-- `download_document` (documents.py): on a hash mismatch the dedicated
`document_integrity_violation` audit entry is written and the download is
refused with a 500. -/
def download_document (st : St) (user_id document_id : Nat) : St × Resp :=
  match findUser st user_id with
  | none => (st, err 404 "User not found")
  | some _ =>
    match findOwnedDoc st document_id user_id with
    | none => (st, err 404 "Document not found")
    | some document =>
      match getFile st.files document.file_path with
      | none => (st, err 404 "Document file not found on disk")
      | some file_content =>
        if !document.verify_integrity file_content then
          let st1 := log_audit_event st "document_integrity_violation" "document"
            (some (toString document_id)) (some user_id)
            (some [("filename", .str document.original_filename),
              ("expected_hash", .str document.content_hash),
              ("actual_hash", .str (calculate_file_hash file_content))])
          (st1, err 500 "Document integrity check failed")
        else
          let st1 := create_chain_of_custody_record st document.id "downloaded" user_id
            (some [("filename", .str document.original_filename)])
          let st2 := log_audit_event st1 "document_downloaded" "document"
            (some (toString document_id)) (some user_id)
            (some [("filename", .str document.original_filename)])
          (st2, ⟨200, [("send_file", .str document.file_path),
            ("download_name", .str document.original_filename)]⟩)

/-- The mutable metadata fields of a `PUT /documents/<id>` request. -/
structure UpdateData where
  case_number : Option String
  description : Option String
  tags : Option String

/-- `update_document` (documents.py). -/
def update_document (st : St) (user_id document_id : Nat) (data : UpdateData) : St × Resp :=
  match findUser st user_id with
  | none => (st, err 404 "User not found")
  | some _ =>
    match findOwnedDoc st document_id user_id with
    | none => (st, err 404 "Document not found")
    | some document =>
      let upd := fun (d : DocumentRec) =>
        let d1 := match data.case_number with | some v => { d with case_number := v } | none => d
        let d2 := match data.description with | some v => { d1 with description := v } | none => d1
        match data.tags with | some v => { d2 with tags := v } | none => d2
      let document' := upd document
      let st1 := { st with documents := st.documents.map fun d =>
        if d.id == document.id then upd d else d }
      let fields := (if data.case_number.isSome then [JVal.str "case_number"] else []) ++
        (if data.description.isSome then [JVal.str "description"] else []) ++
        (if data.tags.isSome then [JVal.str "tags"] else [])
      let st2 := log_audit_event st1 "document_updated" "document"
        (some (toString document_id)) (some user_id)
        (some [("filename", .str document.original_filename), ("updated_fields", .arr fields)])
      (st2, ⟨200, [("message", .str "Document updated successfully"),
        ("document", document'.to_dict)]⟩)

/-- `delete_document` (documents.py): the role gate (`admin` or
`forensic_analyst`) fires first — also for a missing user — then the
owner-scoped lookup; deletion removes the disk file and the row after
writing the chain-of-custody and deletion audit entries. -/
def delete_document (st : St) (user_id document_id : Nat) : St × Resp :=
  match findUser st user_id with
  | none => (st, err 403 "Insufficient permissions")
  | some user =>
    if !(user.role == "admin" || user.role == "forensic_analyst") then
      (st, err 403 "Insufficient permissions")
    else
      match findOwnedDoc st document_id user_id with
      | none => (st, err 404 "Document not found")
      | some document =>
        let st1 := create_chain_of_custody_record st document.id "deleted" user_id
          (some [("filename", .str document.original_filename)])
        let st2 := log_audit_event st1 "document_deleted" "document"
          (some (toString document_id)) (some user_id)
          (some (match document.to_dict with | .obj o => o | _ => []))
        let st3 := { st2 with
          files := delFile st2.files document.file_path
          documents := st2.documents.filter fun d => !(d.id == document.id) }
        (st3, ⟨200, [("message", .str "Document deleted successfully")]⟩)

/-- `verify_document_integrity` (documents.py): recomputes the digest of
the on-disk bytes, logs a `document_integrity_verified` audit entry whose
details carry the verdict, and reports the verdict with a 200.  The file
modification time in the body is represented by the current tick. -/
def verify_document_integrity (st : St) (user_id document_id : Nat) : St × Resp :=
  match findUser st user_id with
  | none => (st, err 404 "User not found")
  | some _ =>
    match findOwnedDoc st document_id user_id with
    | none => (st, err 404 "Document not found")
    | some document =>
      match getFile st.files document.file_path with
      | none => (st, ⟨404, [("verified", .bool false),
          ("error", .str "Document file not found on disk")]⟩)
      | some file_content =>
        let current_hash := calculate_file_hash file_content
        let is_verified := current_hash == document.content_hash
        let st1 := log_audit_event st "document_integrity_verified" "document"
          (some (toString document_id)) (some user_id)
          (some [("filename", .str document.original_filename),
            ("verified", .bool is_verified),
            ("original_hash", .str document.content_hash),
            ("current_hash", .str current_hash)])
        (st1, ⟨200, [("verified", .bool is_verified),
          ("original_hash", .str document.content_hash),
          ("current_hash", .str current_hash),
          ("file_size", .nat document.file_size),
          ("last_modified", .nat st.now)]⟩)

/-! ## Processing endpoints (`routes/processing.py`)

`extract_text_from_file` reads the stored file through external
libraries (PyPDF2, python-docx); its outcome enters each endpoint as the
parameter `extracted` (`none` for a `None` result, `some ""` for empty
text — both falsy, hence rejected).  The raising branch (extraction
errors, rolled back to a 500) is not modelled; it leaves the state
unchanged. -/

/-- `summarize_document` (processing.py): upserts the summary of the
requested type, marks the document processed, and writes the
chain-of-custody and `document_summarized` audit entries. -/
def summarize_document (st : St) (user_id document_id : Nat) (summary_type : String)
    (extracted : Option String) : St × Resp :=
  match findUser st user_id with
  | none => (st, err 404 "User not found")
  | some _ =>
    match findOwnedDoc st document_id user_id with
    | none => (st, err 404 "Document not found")
    | some document =>
      if !(["brief", "detailed", "key_points"].contains summary_type) then
        (st, err 400 "Invalid summary type")
      else
        match getFile st.files document.file_path with
        | none => (st, err 404 "Document file not found")
        | some _ =>
          match extracted with
          | none => (st, err 400 "Could not extract text from document")
          | some text =>
            if text == "" then (st, err 400 "Could not extract text from document")
            else
              let summary_content := generate_summary_basic text.toList summary_type
              let st1 : St :=
                match st.summaries.find? (fun s =>
                    s.document_id == document_id && s.summary_type == summary_type) with
                | some ex =>
                  { st with summaries := st.summaries.map fun s =>
                      if s.id == ex.id then
                        { s with content := summary_content,
                                 created_at := some st.now, processing_time := 0 }
                      else s }
                | none =>
                  { st with
                    summaries := st.summaries ++ [{
                      id := st.next_summary_id
                      document_id := document_id
                      summary_type := summary_type
                      content := summary_content
                      confidence_score := 8
                      created_at := some st.now
                      processing_time := 0 }]
                    next_summary_id := st.next_summary_id + 1 }
              let st2 := { st1 with documents := st1.documents.map fun d =>
                if d.id == document_id then
                  { d with processing_status := "completed", is_processed := true }
                else d }
              let st3 := create_chain_of_custody_record st2 document.id "summarized" user_id
                (some [("summary_type", .str summary_type), ("processing_time", .nat 0)])
              let st4 := log_audit_event st3 "document_summarized" "document"
                (some (toString document_id)) (some user_id)
                (some [("filename", .str document.original_filename),
                  ("summary_type", .str summary_type), ("processing_time", .nat 0)])
              (st4, ⟨200, [("message", .str "Document summarized successfully")]⟩)

/-- `redact_document` (processing.py) for requests without caller-supplied
patterns (`custom_patterns = []`, so the built-in `redact_text` branch
runs whatever `redaction_type` says): stores one `DocumentRedaction` row
per recorded match and writes the chain-of-custody and
`document_redacted` audit entries.  `redaction_text` is the marker
(default `'***REDACTED***'`). -/
def redact_document (st : St) (user_id document_id : Nat)
    (redaction_type redaction_text : String) (extracted : Option String) : St × Resp :=
  match findUser st user_id with
  | none => (st, err 404 "User not found")
  | some _ =>
    match findOwnedDoc st document_id user_id with
    | none => (st, err 404 "Document not found")
    | some document =>
      match getFile st.files document.file_path with
      | none => (st, err 404 "Document file not found")
      | some _ =>
        match extracted with
        | none => (st, err 400 "Could not extract text from document")
        | some text =>
          if text == "" then (st, err 400 "Could not extract text from document")
          else
            let rr := redact_text text.toList redaction_text.toList
            let st1 := { st with
              redactions := st.redactions ++ rr.2.enum.map fun p => {
                id := st.next_redaction_id + p.1
                document_id := document_id
                redaction_type := redaction_type
                start_position := p.2.mstart
                end_position := p.2.mend
                original_text := String.mk p.2.original
                redacted_text := redaction_text
                reason := "Automatic " ++ redaction_type ++ " redaction"
                created_at := some st.now
                applied_by := some user_id }
              next_redaction_id := st.next_redaction_id + rr.2.length }
            let st2 := create_chain_of_custody_record st1 document.id "redacted" user_id
              (some [("redaction_type", .str redaction_type),
                ("redactions_count", .nat rr.2.length)])
            let st3 := log_audit_event st2 "document_redacted" "document"
              (some (toString document_id)) (some user_id)
              (some [("filename", .str document.original_filename),
                ("redaction_type", .str redaction_type),
                ("redactions_count", .nat rr.2.length)])
            let shown :=
              if 1000 < rr.1.length then String.mk (rr.1.take 1000) ++ "..."
              else String.mk rr.1
            (st3, ⟨200, [("message", .str "Document redacted successfully"),
              ("redactions_count", .nat rr.2.length), ("redacted_text", .str shown)]⟩)

/-- `generate_timeline` (processing.py): clears every `DocumentTimeline`
row of the document, inserts the freshly extracted events, and writes the
chain-of-custody and `document_timeline_generated` audit entries. -/
def generate_timeline (st : St) (user_id document_id : Nat)
    (extracted : Option String) : St × Resp :=
  match findUser st user_id with
  | none => (st, err 404 "User not found")
  | some _ =>
    match findOwnedDoc st document_id user_id with
    | none => (st, err 404 "Document not found")
    | some document =>
      match getFile st.files document.file_path with
      | none => (st, err 404 "Document file not found")
      | some _ =>
        match extracted with
        | none => (st, err 400 "Could not extract text from document")
        | some text =>
          if text == "" then (st, err 400 "Could not extract text from document")
          else
            let timeline_events := extract_timeline_events_basic text.toList
            let newRows := timeline_events.enum.map fun p => {
              id := st.next_timeline_id + p.1
              document_id := document_id
              event_date := p.2.date
              event_type := "extracted"
              event_description := p.2.description
              page_number := none
              confidence_score := p.2.confidence
              extracted_at := some st.now : TimelineRec }
            let st1 := { st with
              timelines :=
                (st.timelines.filter fun t => !(t.document_id == document_id)) ++ newRows
              next_timeline_id := st.next_timeline_id + timeline_events.length }
            let st2 := create_chain_of_custody_record st1 document.id "timeline_generated"
              user_id
              (some [("events_extracted", .nat timeline_events.length),
                ("processing_time", .nat 0)])
            let st3 := log_audit_event st2 "document_timeline_generated" "document"
              (some (toString document_id)) (some user_id)
              (some [("filename", .str document.original_filename),
                ("events_extracted", .nat timeline_events.length),
                ("processing_time", .nat 0)])
            (st3, ⟨200, [("message", .str "Timeline generated successfully"),
              ("events_count", .nat timeline_events.length)]⟩)

/-- `transcribe_document` (processing.py): placeholder transcription
stored as a summary of type `'transcription'` (upsert), with the
chain-of-custody and `document_transcribed` audit entries. -/
def transcribe_document (st : St) (user_id document_id : Nat) : St × Resp :=
  match findUser st user_id with
  | none => (st, err 404 "User not found")
  | some _ =>
    match findOwnedDoc st document_id user_id with
    | none => (st, err 404 "Document not found")
    | some document =>
      if !(document.file_type == "audio" || document.file_type == "video") then
        (st, err 400 "Document is not audio or video")
      else
        let transcription :=
          "[PLACEHOLDER TRANSCRIPTION] This is a placeholder transcription for " ++
            document.original_filename ++
            ". In production, this would contain the actual transcribed audio/video content using AI services."
        let st1 : St :=
          match st.summaries.find? (fun s =>
              s.document_id == document_id && s.summary_type == "transcription") with
          | some ex =>
            { st with summaries := st.summaries.map fun s =>
                if s.id == ex.id then
                  { s with content := transcription,
                           created_at := some st.now, processing_time := 0 }
                else s }
          | none =>
            { st with
              summaries := st.summaries ++ [{
                id := st.next_summary_id
                document_id := document_id
                summary_type := "transcription"
                content := transcription
                confidence_score := 9
                created_at := some st.now
                processing_time := 0 }]
              next_summary_id := st.next_summary_id + 1 }
        let st2 := create_chain_of_custody_record st1 document.id "transcribed" user_id
          (some [("processing_time", .nat 0)])
        let st3 := log_audit_event st2 "document_transcribed" "document"
          (some (toString document_id)) (some user_id)
          (some [("filename", .str document.original_filename), ("processing_time", .nat 0)])
        (st3, ⟨200, [("message", .str "Document transcribed successfully")]⟩)

/-! ## Analysis endpoints (`routes/analysis.py`) -/

/-- `analyze_chat` (analysis.py): guards, hash-based one-hour dedup cache,
analysis, storage, `chat_analyzed` audit, plus a
`sensitive_content_detected` audit when flagged. -/
def analyze_chat (st : St) (user_id : Nat) (content : Option String) : St × Resp :=
  match findUser st user_id with
  | none => (st, err 404 "User not found")
  | some _ =>
    match content with
    | none => (st, err 400 "Chat content is required")
    | some chat_content =>
      if (pyStrip chat_content.toList).length < 5 then
        (st, err 400 "Chat content too short for analysis")
      else if 10000 < chat_content.length then
        (st, err 400 "Chat content too long (max 10,000 characters)")
      else
        let content_hash := calculate_file_hash (strBytes chat_content)
        match st.chats.find? (fun c =>
            c.content_hash == content_hash && c.user_id == user_id &&
              st.now < c.created_at.getD 0 + 3600) with
        | some existing =>
          let st1 := log_audit_event st "chat_analysis_retrieved" "chat"
            (some (toString existing.id)) (some user_id)
            (some [("content_hash", .str content_hash)])
          (st1, ⟨200, [("message", .str "Analysis retrieved from cache")]⟩)
        | none =>
          let analysis := analyze_chat_content_basic chat_content.toList
          let chat : ChatRec := {
            id := st.next_chat_id
            user_id := user_id
            chat_content := chat_content
            sentiment_score := analysis.sentiment_score
            keywords := analysis.keywords
            entities := analysis.entities
            content_hash := content_hash
            created_at := some st.now
            processing_time := 0 }
          let st1 := { st with chats := st.chats ++ [chat]
                               next_chat_id := st.next_chat_id + 1 }
          let st2 := log_audit_event st1 "chat_analyzed" "chat"
            (some (toString chat.id)) (some user_id)
            (some [("content_hash", .str content_hash),
              ("sentiment", .str analysis.sentiment),
              ("urgency_level", .str analysis.urgency_level),
              ("contains_sensitive_info", .bool analysis.contains_sensitive_info),
              ("processing_time", .nat 0)])
          let st3 :=
            if analysis.contains_sensitive_info then
              log_audit_event st2 "sensitive_content_detected" "chat"
                (some (toString chat.id)) (some user_id)
                (some [("content_hash", .str content_hash)])
            else st2
          (st3, ⟨201, [("message", .str "Chat analyzed successfully")]⟩)

/-- `get_forensic_data` (analysis.py).  `analysis.py` never imports `os`,
so when the resource is a document that exists the handler raises
`NameError` at `os.path.exists`, caught into a 500 with no audit write;
that path is modelled faithfully.  Response assembly (audit trail,
summary statistics) is carried only as the events count. -/
def get_forensic_data (st : St) (user_id resource_id : Nat) (resource_type : String) :
    St × Resp :=
  match findUser st user_id with
  | none => (st, err 403 "Insufficient permissions for forensic access")
  | some user =>
    if !(user.role == "admin" || user.role == "forensic_analyst") then
      (st, err 403 "Insufficient permissions for forensic access")
    else if !(["document", "chat", "user"].contains resource_type) then
      (st, err 400 "Invalid resource type")
    else
      let trail := st.audit_logs.filter fun l =>
        l.resource_type == resource_type && l.resource_id == some (toString resource_id)
      if resource_type == "document" &&
          (st.documents.find? fun d => d.id == resource_id).isSome then
        (st, err 500 "Failed to get forensic data")
      else
        let st1 := log_audit_event st "forensic_data_accessed" resource_type
          (some (toString resource_id)) (some user_id)
          (some [("events_count", .nat trail.length)])
        (st1, ⟨200, [("message", .str "Forensic data retrieved successfully"),
          ("total_events", .nat trail.length)]⟩)

/-- The filter parameters of `GET /api/analysis/audit/logs`. -/
structure AuditQuery where
  action : Option String
  resource_type : Option String
  target_user_id : Option Nat
  start_tick : Option Nat
  end_tick : Option Nat

/-- `get_audit_logs` (analysis.py): role gate, substring/equality/time
filters, newest-first ordering, and an `audit_logs_accessed` audit entry
(pagination elided; the body carries the filtered count). -/
def get_audit_logs (st : St) (user_id : Nat) (q : AuditQuery) : St × Resp :=
  match findUser st user_id with
  | none => (st, err 403 "Insufficient permissions for audit access")
  | some user =>
    if !(user.role == "admin" || user.role == "forensic_analyst") then
      (st, err 403 "Insufficient permissions for audit access")
    else
      let step1 : List AuditLogRec := match q.action with
        | some a => st.audit_logs.filter fun l => containsSubB a.toList l.action.toList
        | none => st.audit_logs
      let step2 : List AuditLogRec := match q.resource_type with
        | some rt => step1.filter fun l => l.resource_type == rt
        | none => step1
      let step3 : List AuditLogRec := match q.target_user_id with
        | some uid => step2.filter fun l => l.user_id == some uid
        | none => step2
      let step4 : List AuditLogRec := match q.start_tick with
        | some t => step3.filter fun l => t ≤ l.timestamp.getD 0
        | none => step3
      let step5 : List AuditLogRec := match q.end_tick with
        | some t => step4.filter fun l => l.timestamp.getD 0 ≤ t
        | none => step4
      let ordered := step5.reverse
      let st1 := log_audit_event st "audit_logs_accessed" "system" none (some user_id)
        (some [("results_count", .nat ordered.length)])
      (st1, ⟨200, [("results_count", .nat ordered.length)]⟩)

/-- `export_analysis_data` (analysis.py): role gate, read-only assembly
of the caller's documents / chats / audit rows, and one `data_exported`
audit entry.  The assembled body is carried as the three counts. -/
def export_analysis_data (st : St) (user_id : Nat) (export_type : String) : St × Resp :=
  match findUser st user_id with
  | none => (st, err 403 "Insufficient permissions for data export")
  | some user =>
    if !(user.role == "admin" || user.role == "forensic_analyst") then
      (st, err 403 "Insufficient permissions for data export")
    else
      let docs :=
        if export_type == "full" || export_type == "documents" then
          (st.documents.filter fun d => d.user_id == user_id).length
        else 0
      let chats :=
        if export_type == "full" || export_type == "chats" then
          (st.chats.filter fun c => c.user_id == user_id).length
        else 0
      let logs :=
        if export_type == "full" || export_type == "audit" then
          (st.audit_logs.filter fun l => l.user_id == some user_id).length
        else 0
      let st1 := log_audit_event st "data_exported" "system" none (some user_id)
        (some [("export_type", .str export_type), ("exported_by", .str user.username)])
      (st1, ⟨200, [("message", .str "Data exported successfully"),
        ("documents", .nat docs), ("chat_analyses", .nat chats), ("audit_logs", .nat logs)]⟩)

/-! ## The system's operations

Every state-changing request handler of the repository as one step
relation.  The remaining handlers (`list_documents`, `get_profile`, the
summary/redaction/timeline readers, `get_chat_history`,
`get_analysis_stats` and the `routes/main.py` pages) perform no database
writes at all and are not repeated here. -/

inductive Op where
  | opRegister (data : RegisterData)
  | opLogin (username password : String)
  | opLogout (user_id : Nat)
  | opChangePassword (user_id : Nat) (current new : String)
  | opUpload (user_id : Nat) (file : Option FileUpload)
      (case_number description tags : String)
  | opGetDocument (user_id document_id : Nat)
  | opDownload (user_id document_id : Nat)
  | opUpdateDocument (user_id document_id : Nat) (data : UpdateData)
  | opDelete (user_id document_id : Nat)
  | opVerify (user_id document_id : Nat)
  | opSummarize (user_id document_id : Nat) (summary_type : String)
      (extracted : Option String)
  | opRedact (user_id document_id : Nat) (redaction_type redaction_text : String)
      (extracted : Option String)
  | opTimeline (user_id document_id : Nat) (extracted : Option String)
  | opTranscribe (user_id document_id : Nat)
  | opAnalyzeChat (user_id : Nat) (content : Option String)
  | opForensic (user_id resource_id : Nat) (resource_type : String)
  | opAuditLogs (user_id : Nat) (q : AuditQuery)
  | opExport (user_id : Nat) (export_type : String)

/-- One request against the server. -/
def step (st : St) : Op → St × Resp
  | .opRegister d => register st d
  | .opLogin u p => login st u p
  | .opLogout uid => logout st uid
  | .opChangePassword uid c n => change_password st uid c n
  | .opUpload uid f cn de tg => upload_document st uid f cn de tg
  | .opGetDocument uid did => get_document st uid did
  | .opDownload uid did => download_document st uid did
  | .opUpdateDocument uid did d => update_document st uid did d
  | .opDelete uid did => delete_document st uid did
  | .opVerify uid did => verify_document_integrity st uid did
  | .opSummarize uid did ty ex => summarize_document st uid did ty ex
  | .opRedact uid did ty tx ex => redact_document st uid did ty tx ex
  | .opTimeline uid did ex => generate_timeline st uid did ex
  | .opTranscribe uid did => transcribe_document st uid did
  | .opAnalyzeChat uid c => analyze_chat st uid c
  | .opForensic uid rid rt => get_forensic_data st uid rid rt
  | .opAuditLogs uid q => get_audit_logs st uid q
  | .opExport uid ty => export_analysis_data st uid ty

/-! ## The audit log only ever grows -/

/-- The stored audit rows of `st'` are those of `st` followed by newly
appended rows: nothing existing was updated or deleted. -/
def AuditExt (st st' : St) : Prop :=
  ∃ t, st'.audit_logs = st.audit_logs ++ t

theorem auditExt_refl (st : St) : AuditExt st st := ⟨[], by simp⟩

theorem auditExt_of_eq {st st' : St} (h : st'.audit_logs = st.audit_logs) :
    AuditExt st st' := ⟨[], by simp [h]⟩

theorem auditExt_log {st st' : St} (h : AuditExt st st')
    (a rt : String) (ri : Option String) (ui : Option Nat) (d : Option JObj) :
    AuditExt st (log_audit_event st' a rt ri ui d) := by
  obtain ⟨t, ht⟩ := h
  let row : AuditLogRec := {
    id := st'.next_audit_id
    user_id := ui
    action := a
    resource_type := rt
    resource_id := ri
    details := d
    ip_address := st'.req_ip
    user_agent := st'.req_user_agent
    timestamp := some st'.now
    session_id := st'.req_session_id }
  refine ⟨t ++ [row], ?_⟩
  simp [log_audit_event, ht, row]

theorem auditExt_custody {st st' : St} (h : AuditExt st st')
    (i : Nat) (a : String) (u : Nat) (d : Option JObj) :
    AuditExt st (create_chain_of_custody_record st' i a u d) :=
  auditExt_log h _ _ _ _ _

theorem auditExt_preserve {st st' st'' : St} (h : AuditExt st st')
    (he : st''.audit_logs = st'.audit_logs) : AuditExt st st'' := by
  obtain ⟨t, ht⟩ := h
  exact ⟨t, by rw [he, ht]⟩

theorem auditExt_register (st : St) (d : RegisterData) : AuditExt st (register st d).1 := by
  unfold register
  repeat' (first | dsimp only | split)
  all_goals
    first
      | exact auditExt_refl _
      | exact auditExt_log (auditExt_of_eq rfl) _ _ _ _ _

theorem auditExt_login (st : St) (u p : String) : AuditExt st (login st u p).1 := by
  unfold login
  repeat' (first | dsimp only | split)
  all_goals
    first
      | exact auditExt_refl _
      | exact auditExt_log (auditExt_of_eq rfl) _ _ _ _ _

theorem auditExt_logout (st : St) (uid : Nat) : AuditExt st (logout st uid).1 := by
  unfold logout
  repeat' (first | dsimp only | split)
  all_goals
    first
      | exact auditExt_refl _
      | exact auditExt_log (auditExt_of_eq rfl) _ _ _ _ _

theorem auditExt_change_password (st : St) (uid : Nat) (c n : String) :
    AuditExt st (change_password st uid c n).1 := by
  unfold change_password
  repeat' (first | dsimp only | split)
  all_goals
    first
      | exact auditExt_refl _
      | exact auditExt_log (auditExt_of_eq rfl) _ _ _ _ _

theorem auditExt_upload (st : St) (uid : Nat) (f : Option FileUpload) (cn de tg : String) :
    AuditExt st (upload_document st uid f cn de tg).1 := by
  unfold upload_document
  repeat' (first | dsimp only | split)
  all_goals
    first
      | exact auditExt_refl _
      | exact auditExt_log (auditExt_custody (auditExt_of_eq rfl) _ _ _ _) _ _ _ _ _

theorem auditExt_get_document (st : St) (uid did : Nat) :
    AuditExt st (get_document st uid did).1 := by
  unfold get_document
  repeat' (first | dsimp only | split)
  all_goals
    first
      | exact auditExt_refl _
      | exact auditExt_log (auditExt_of_eq rfl) _ _ _ _ _

theorem auditExt_download (st : St) (uid did : Nat) :
    AuditExt st (download_document st uid did).1 := by
  unfold download_document
  repeat' (first | dsimp only | split)
  all_goals
    first
      | exact auditExt_refl _
      | exact auditExt_log (auditExt_of_eq rfl) _ _ _ _ _
      | exact auditExt_log (auditExt_custody (auditExt_refl _) _ _ _ _) _ _ _ _ _

theorem auditExt_update_document (st : St) (uid did : Nat) (d : UpdateData) :
    AuditExt st (update_document st uid did d).1 := by
  unfold update_document
  repeat' (first | dsimp only | split)
  all_goals
    first
      | exact auditExt_refl _
      | exact auditExt_log (auditExt_of_eq rfl) _ _ _ _ _

theorem auditExt_delete (st : St) (uid did : Nat) :
    AuditExt st (delete_document st uid did).1 := by
  unfold delete_document
  repeat' (first | dsimp only | split)
  all_goals
    first
      | exact auditExt_refl _
      | exact auditExt_preserve
          (auditExt_log (auditExt_custody (auditExt_refl _) _ _ _ _) _ _ _ _ _) rfl

theorem auditExt_verify (st : St) (uid did : Nat) :
    AuditExt st (verify_document_integrity st uid did).1 := by
  unfold verify_document_integrity
  repeat' (first | dsimp only | split)
  all_goals
    first
      | exact auditExt_refl _
      | exact auditExt_log (auditExt_of_eq rfl) _ _ _ _ _

theorem auditExt_summarize (st : St) (uid did : Nat) (ty : String) (ex : Option String) :
    AuditExt st (summarize_document st uid did ty ex).1 := by
  unfold summarize_document
  repeat' (first | dsimp only | split)
  all_goals
    first
      | exact auditExt_refl _
      | exact auditExt_log (auditExt_custody (auditExt_of_eq rfl) _ _ _ _) _ _ _ _ _

theorem auditExt_redact (st : St) (uid did : Nat) (ty tx : String) (ex : Option String) :
    AuditExt st (redact_document st uid did ty tx ex).1 := by
  unfold redact_document
  repeat' (first | dsimp only | split)
  all_goals
    first
      | exact auditExt_refl _
      | exact auditExt_log (auditExt_custody (auditExt_of_eq rfl) _ _ _ _) _ _ _ _ _

theorem auditExt_timeline (st : St) (uid did : Nat) (ex : Option String) :
    AuditExt st (generate_timeline st uid did ex).1 := by
  unfold generate_timeline
  repeat' (first | dsimp only | split)
  all_goals
    first
      | exact auditExt_refl _
      | exact auditExt_log (auditExt_custody (auditExt_of_eq rfl) _ _ _ _) _ _ _ _ _

theorem auditExt_transcribe (st : St) (uid did : Nat) :
    AuditExt st (transcribe_document st uid did).1 := by
  unfold transcribe_document
  repeat' (first | dsimp only | split)
  all_goals
    first
      | exact auditExt_refl _
      | exact auditExt_log (auditExt_custody (auditExt_of_eq rfl) _ _ _ _) _ _ _ _ _

theorem auditExt_analyze_chat (st : St) (uid : Nat) (c : Option String) :
    AuditExt st (analyze_chat st uid c).1 := by
  unfold analyze_chat
  repeat' (first | dsimp only | split)
  all_goals
    first
      | exact auditExt_refl _
      | exact auditExt_log (auditExt_of_eq rfl) _ _ _ _ _
      | exact auditExt_log (auditExt_log (auditExt_of_eq rfl) _ _ _ _ _) _ _ _ _ _

theorem auditExt_forensic (st : St) (uid rid : Nat) (rt : String) :
    AuditExt st (get_forensic_data st uid rid rt).1 := by
  unfold get_forensic_data
  repeat' (first | dsimp only | split)
  all_goals
    first
      | exact auditExt_refl _
      | exact auditExt_log (auditExt_of_eq rfl) _ _ _ _ _

theorem auditExt_audit_logs (st : St) (uid : Nat) (q : AuditQuery) :
    AuditExt st (get_audit_logs st uid q).1 := by
  unfold get_audit_logs
  repeat' (first | dsimp only | split)
  all_goals
    first
      | exact auditExt_refl _
      | exact auditExt_log (auditExt_of_eq rfl) _ _ _ _ _

theorem auditExt_export (st : St) (uid : Nat) (ty : String) :
    AuditExt st (export_analysis_data st uid ty).1 := by
  unfold export_analysis_data
  repeat' (first | dsimp only | split)
  all_goals
    first
      | exact auditExt_refl _
      | exact auditExt_log (auditExt_of_eq rfl) _ _ _ _ _

/-- C4: The audit log is append-only: no operation of the system ever
updates or deletes an existing `AuditLog` row — after any request
(`step`), the stored audit rows are exactly the previous rows followed
by the rows that request appended. -/
theorem audit_log_append_only (st : St) (op : Op) :
    AuditExt st (step st op).1 := by
  cases op
  case opRegister d => exact auditExt_register st d
  case opLogin u p => exact auditExt_login st u p
  case opLogout uid => exact auditExt_logout st uid
  case opChangePassword uid c n => exact auditExt_change_password st uid c n
  case opUpload uid f cn de tg => exact auditExt_upload st uid f cn de tg
  case opGetDocument uid did => exact auditExt_get_document st uid did
  case opDownload uid did => exact auditExt_download st uid did
  case opUpdateDocument uid did d => exact auditExt_update_document st uid did d
  case opDelete uid did => exact auditExt_delete st uid did
  case opVerify uid did => exact auditExt_verify st uid did
  case opSummarize uid did ty ex => exact auditExt_summarize st uid did ty ex
  case opRedact uid did ty tx ex => exact auditExt_redact st uid did ty tx ex
  case opTimeline uid did ex => exact auditExt_timeline st uid did ex
  case opTranscribe uid did => exact auditExt_transcribe st uid did
  case opAnalyzeChat uid c => exact auditExt_analyze_chat st uid c
  case opForensic uid rid rt => exact auditExt_forensic st uid rid rt
  case opAuditLogs uid q => exact auditExt_audit_logs st uid q
  case opExport uid ty => exact auditExt_export st uid ty

/-! ## Concrete fixtures shared by the witnesses -/

def baseSt : St := {
  users := []
  documents := []
  summaries := []
  redactions := []
  timelines := []
  audit_logs := []
  chats := []
  files := []
  next_user_id := 1
  next_doc_id := 1
  next_summary_id := 1
  next_redaction_id := 1
  next_timeline_id := 1
  next_audit_id := 1
  next_chat_id := 1
  now := 1000
  uuid_counter := 7
  req_ip := some "10.0.0.1"
  req_user_agent := some "pytest"
  req_session_id := none
  max_content_length := 104857600 }

def alice : UserRec := {
  id := 1
  username := "alice"
  email := "alice@example.com"
  password_hash := generate_password_hash "Aa1!aaaa"
  role := "user"
  is_active := true
  created_at := some 1
  last_login := none }

def rootAnalyst : UserRec := {
  id := 2
  username := "root"
  email := "root@example.com"
  password_hash := generate_password_hash "Aa1!root"
  role := "admin"
  is_active := true
  created_at := some 1
  last_login := none }

def userSt : St := { baseSt with users := [alice, rootAnalyst], next_user_id := 3 }

/-- C6: `validate_password_strength(p)` returns `True` exactly when `p`
has length at least 8 and contains an uppercase letter, a lowercase
letter, a digit and a special character (the source's class
`!@#$%^&*(),.?":\x7b\x7d|<>`); and both registration and password change
answer 400 without any state change when the (present) password fails
the check. -/
theorem password_strength_spec (p : String) :
    (validate_password_strength p = true ↔
      (8 ≤ p.length ∧
        (p.toList.any fun c => 'A' ≤ c && c ≤ 'Z') = true ∧
        (p.toList.any fun c => 'a' ≤ c && c ≤ 'z') = true ∧
        p.toList.any isDigitCh = true ∧
        (p.toList.any fun c => specialChars.contains c) = true)) ∧
    (∀ st (data : RegisterData), data.username ≠ "" → data.email ≠ "" →
      data.password = p → p ≠ "" →
      validate_password_strength p = false →
      register st data = (st, err 400 "Password must be at least 8 characters long and contain uppercase, lowercase, number, and special character")) ∧
    (∀ st uid u cur, findUser st uid = some u → cur ≠ "" → p ≠ "" →
      u.check_password cur = true →
      validate_password_strength p = false →
      change_password st uid cur p = (st, err 400 "New password must be at least 8 characters long and contain uppercase, lowercase, number, and special character")) := by
  refine ⟨?_, ?_, ?_⟩
  · unfold validate_password_strength
    split_ifs with h1 h2 h3 h4 h5
    · simp only [false_iff]
      rintro ⟨h, -⟩
      omega
    · rw [Bool.not_eq_true'] at h2
      simp only [false_iff]
      rintro ⟨-, h, -⟩
      rw [h2] at h
      exact absurd h (by simp)
    · rw [Bool.not_eq_true'] at h3
      simp only [false_iff]
      rintro ⟨-, -, h, -⟩
      rw [h3] at h
      exact absurd h (by simp)
    · rw [Bool.not_eq_true'] at h4
      simp only [false_iff]
      rintro ⟨-, -, -, h, -⟩
      rw [h4] at h
      exact absurd h (by simp)
    · rw [Bool.not_eq_true'] at h5
      simp only [false_iff]
      rintro ⟨-, -, -, -, h⟩
      rw [h5] at h
      exact absurd h (by simp)
    · simp only [Bool.not_eq_true, Bool.not_eq_false'] at h2 h3 h4 h5
      constructor
      · intro _
        exact ⟨by omega, h2, h3, h4, h5⟩
      · intro _
        rfl
  · intro st data hu he hp hpne hv
    subst hp
    have h1 : (data.username == "") = false := by simpa using hu
    have h2 : (data.email == "") = false := by simpa using he
    have h3 : (data.password == "") = false := by simpa using hpne
    simp [register, h1, h2, h3, hv]
  · intro st uid u cur hfind hcur hpne hchk hv
    have h1 : (cur == "") = false := by simpa using hcur
    have h2 : (p == "") = false := by simpa using hpne
    simp [change_password, hfind, h1, h2, hchk, hv]

/-- C6 at concrete inputs: `"Aa1!aaaa"` passes all five checks;
`"weakpass"` fails and both endpoints answer 400 leaving the state
untouched. -/
theorem password_strength_spec_witness :
    validate_password_strength "Aa1!aaaa" = true ∧
    register userSt ⟨"bob", "bob@example.com", "weakpass", none⟩ =
      (userSt, err 400 "Password must be at least 8 characters long and contain uppercase, lowercase, number, and special character") ∧
    change_password userSt 1 "Aa1!aaaa" "weakpass" =
      (userSt, err 400 "New password must be at least 8 characters long and contain uppercase, lowercase, number, and special character") := by
  refine ⟨by decide, ?_, ?_⟩
  · exact (password_strength_spec "weakpass").2.1 userSt
      ⟨"bob", "bob@example.com", "weakpass", none⟩
      (by decide) (by decide) rfl (by decide) (by decide)
  · exact (password_strength_spec "weakpass").2.2 userSt 1 alice "Aa1!aaaa"
      rfl (by decide) (by decide) rfl (by decide)

/-! ## Upload deduplication (C5, C9) -/

/-- C5: An upload whose bytes hash to the digest of an already-stored
document — one that passed the earlier request-shape, extension and size
validation — is rejected with a 409 conflict whose body carries the
first matching document's id, and the state (in particular the document
table and the stored files) is returned unchanged. -/
theorem upload_duplicate_conflict (st : St) (uid : Nat) (f : FileUpload)
    (cn de tg : String) (u : UserRec) (d : DocumentRec)
    (hu : findUser st uid = some u)
    (hfn : f.filename ≠ "")
    (hext : allowed_file f.filename = true)
    (hsz : f.content.length ≤ st.max_content_length)
    (hdup : (st.documents.find? fun d' =>
      d'.content_hash == calculate_file_hash f.content) = some d) :
    upload_document st uid (some f) cn de tg =
      (st, ⟨409, [("error", .str "File already exists"),
        ("existing_document_id", .nat d.id)]⟩) := by
  have h1 : (f.filename == "") = false := by simpa using hfn
  have h2 : ¬ st.max_content_length < f.content.length := by omega
  simp [upload_document, hu, h1, hext, h2, hdup]

/-- C9: The duplicate check of `upload_document` is global across users:
under the same validation hypotheses, a stored document of a *different*
user with the same content hash still triggers the 409 conflict, whose
body carries that other user's document id. -/
theorem upload_duplicate_cross_user (st : St) (uid : Nat) (f : FileUpload)
    (cn de tg : String) (u : UserRec) (d : DocumentRec)
    (hu : findUser st uid = some u)
    (hfn : f.filename ≠ "")
    (hext : allowed_file f.filename = true)
    (hsz : f.content.length ≤ st.max_content_length)
    (hdup : (st.documents.find? fun d' =>
      d'.content_hash == calculate_file_hash f.content) = some d)
    (_howner : d.user_id ≠ uid) :
    upload_document st uid (some f) cn de tg =
      (st, ⟨409, [("error", .str "File already exists"),
        ("existing_document_id", .nat d.id)]⟩) := by
  have h1 : (f.filename == "") = false := by simpa using hfn
  have h2 : ¬ st.max_content_length < f.content.length := by omega
  simp [upload_document, hu, h1, hext, h2, hdup]

/-- A stored two-byte text document (`"hi"`) owned by user 1. -/
def doc1 : DocumentRec := {
  id := 1
  filename := "3_evidence.txt"
  original_filename := "evidence.txt"
  file_path := "secure_uploads/3_evidence.txt"
  file_size := 2
  file_type := "document"
  content_hash := calculate_file_hash [104, 105]
  uploaded_at := some 1
  user_id := 1
  case_number := ""
  tags := "[]"
  description := ""
  is_processed := false
  processing_status := "pending" }

def docSt : St := { userSt with
  documents := [doc1]
  files := [("secure_uploads/3_evidence.txt", [104, 105])]
  next_doc_id := 2 }

set_option maxRecDepth 8000 in
/-- C5 at a concrete input: re-uploading the bytes of `doc1` as
`copy.txt` is answered 409 with `existing_document_id = 1` and no state
change. -/
theorem upload_duplicate_conflict_witness :
    upload_document docSt 1 (some ⟨"copy.txt", [104, 105]⟩) "" "" "[]" =
      (docSt, ⟨409, [("error", .str "File already exists"),
        ("existing_document_id", .nat 1)]⟩) :=
  upload_duplicate_conflict docSt 1 ⟨"copy.txt", [104, 105]⟩ "" "" "[]" alice doc1
    rfl (by decide) (by decide) (by decide) rfl

set_option maxRecDepth 8000 in
/-- C9 at a concrete input: user 2 re-uploading user 1's bytes receives
the same 409 carrying user 1's document id. -/
theorem upload_duplicate_cross_user_witness :
    upload_document docSt 2 (some ⟨"copy.txt", [104, 105]⟩) "" "" "[]" =
      (docSt, ⟨409, [("error", .str "File already exists"),
        ("existing_document_id", .nat 1)]⟩) ∧ doc1.user_id ≠ 2 :=
  ⟨upload_duplicate_cross_user docSt 2 ⟨"copy.txt", [104, 105]⟩ "" "" "[]" rootAnalyst doc1
    rfl (by decide) (by decide) (by decide) rfl (by decide), by decide⟩


/-! ## Delete authorization (C10) -/

/-- C10: `delete_document` succeeds only for a caller whose role is
`admin` or `forensic_analyst` *and* who owns the target document: a
failing role check (also a missing user) answers 403, a missing or
non-owned document answers 404, both leaving the state unchanged; hence,
assuming distinct primary keys, no caller — admins included — removes
another user's document. -/
theorem delete_document_authorization (st : St) (uid did : Nat)
    (hids : ∀ d1 d2, d1 ∈ st.documents → d2 ∈ st.documents → d1.id = d2.id → d1 = d2) :
    (findUser st uid = none →
      delete_document st uid did = (st, err 403 "Insufficient permissions")) ∧
    (∀ u, findUser st uid = some u → u.role ≠ "admin" → u.role ≠ "forensic_analyst" →
      delete_document st uid did = (st, err 403 "Insufficient permissions")) ∧
    (∀ u, findUser st uid = some u → (u.role = "admin" ∨ u.role = "forensic_analyst") →
      findOwnedDoc st did uid = none →
      delete_document st uid did = (st, err 404 "Document not found")) ∧
    ((delete_document st uid did).2.status = 200 ↔
      ∃ u d, findUser st uid = some u ∧
        (u.role = "admin" ∨ u.role = "forensic_analyst") ∧
        findOwnedDoc st did uid = some d) ∧
    (∀ d, d ∈ st.documents → d.user_id ≠ uid →
      d ∈ (delete_document st uid did).1.documents) := by
  refine ⟨?_, ?_, ?_, ?_, ?_⟩
  · intro h
    simp [delete_document, h]
  · intro u hu h1 h2
    have hrole : (u.role == "admin" || u.role == "forensic_analyst") = false := by
      simp [h1, h2]
    simp [delete_document, hu, hrole]
  · intro u hu hrole hdoc
    have hr : (u.role == "admin" || u.role == "forensic_analyst") = true := by
      rcases hrole with h | h <;> simp [h]
    simp [delete_document, hu, hr, hdoc]
  · cases hfu : findUser st uid with
    | none => simp [delete_document, hfu, err]
    | some u =>
      by_cases hr : (u.role == "admin" || u.role == "forensic_analyst") = true
      · cases hdoc : findOwnedDoc st did uid with
        | none =>
          simp only [delete_document, hfu, hr, Bool.not_true, if_neg, hdoc]
          simp [err, hfu]
        | some doc =>
          simp only [delete_document, hfu, hr, Bool.not_true, if_neg, hdoc]
          simp only [Bool.false_eq_true, if_false]
          constructor
          · intro _
            refine ⟨u, doc, rfl, ?_, rfl⟩
            rcases Bool.or_eq_true_iff.mp hr with h | h
            · exact Or.inl (by simpa using h)
            · exact Or.inr (by simpa using h)
          · intro _
            trivial
      · have hr' : (u.role == "admin" || u.role == "forensic_analyst") = false := by
          simpa using hr
        simp [delete_document, hfu, hr', err]
        rintro hx d hd
        rcases hx with h | h <;> simp [h] at hr'
  · intro d hd hne
    cases hfu : findUser st uid with
    | none => simpa [delete_document, hfu] using hd
    | some u =>
      by_cases hr : (u.role == "admin" || u.role == "forensic_analyst") = true
      · cases hdoc : findOwnedDoc st did uid with
        | none => simpa [delete_document, hfu, hr, hdoc] using hd
        | some doc =>
          have hmem : doc ∈ st.documents := List.mem_of_find?_eq_some hdoc
          have hpred := List.find?_some hdoc
          have howner : doc.user_id = uid := by
            simp only [Bool.and_eq_true, beq_iff_eq] at hpred
            exact hpred.2
          have hneq : d.id ≠ doc.id := by
            intro h
            exact hne (by rw [hids d doc hd hmem h, howner])
          simp only [delete_document, hfu, hr, Bool.not_true, hdoc]
          simp only [Bool.false_eq_true, if_false, List.mem_filter]
          exact ⟨hd, by simp [hneq]⟩
      · have hr' : (u.role == "admin" || u.role == "forensic_analyst") = false := by
          simpa using hr
        simpa [delete_document, hfu, hr'] using hd

/-- C10 at concrete inputs: the admin (user 2) cannot delete user 1's
document (404, state unchanged), and the owner (user 1, role `user`)
fails the role gate (403, state unchanged). -/
theorem delete_document_authorization_witness :
    delete_document docSt 2 1 = (docSt, err 404 "Document not found") ∧
    delete_document docSt 1 1 = (docSt, err 403 "Insufficient permissions") := by
  have hids : ∀ d1 d2, d1 ∈ docSt.documents → d2 ∈ docSt.documents →
      d1.id = d2.id → d1 = d2 := by
    intro d1 d2 h1 h2 _
    have e1 : d1 = doc1 := by simpa [docSt] using h1
    have e2 : d2 = doc1 := by simpa [docSt] using h2
    rw [e1, e2]
  constructor
  · exact (delete_document_authorization docSt 2 1 hids).2.2.1 rootAnalyst rfl
      (Or.inl rfl) rfl
  · exact (delete_document_authorization docSt 1 1 hids).2.1 alice rfl
      (by decide) (by decide)

/-! ## Upload / verify round trip (C1) -/

theorem getFile_cons (x : String × List Nat) (l : List (String × List Nat)) (p : String) :
    getFile (x :: l) p = if x.1 == p then some x.2 else getFile l p := by
  by_cases h : (x.1 == p) = true
  · rw [if_pos h]
    unfold getFile
    rw [@List.find?_cons_of_pos _ (fun (e : String × List Nat) => e.1 == p) x l h]
    rfl
  · rw [if_neg h]
    unfold getFile
    rw [@List.find?_cons_of_neg _ (fun (e : String × List Nat) => e.1 == p) x l h]

theorem getFile_setFile (files : List (String × List Nat)) (p : String) (c : List Nat) :
    getFile (setFile files p c) p = some c := by
  unfold setFile
  by_cases h : (files.find? fun e => e.1 == p).isSome
  · rw [if_pos h]
    induction files with
    | nil => simp at h
    | cons e rest ih =>
      by_cases he : (e.1 == p) = true
      · rw [List.map_cons, if_pos he, getFile_cons]
        simp
      · rw [List.map_cons, if_neg he, getFile_cons, if_neg he]
        apply ih
        rw [@List.find?_cons_of_neg _ (fun (e : String × List Nat) => e.1 == p) e rest he] at h
        exact h
  · rw [if_neg h]
    have hnone : (files.find? fun e => e.1 == p) = none := by
      cases hf : files.find? fun e => e.1 == p
      · rfl
      · rw [hf] at h
        simp at h
    unfold getFile
    rw [List.find?_append, hnone]
    rw [@List.find?_cons_of_pos _ (fun (e : String × List Nat) => e.1 == p) (p, c) []
      (by simp)]
    rfl

/-- The document record `upload_document` creates on success (the
`Document(...)` constructor call of the source, with the fresh values of
the state). -/
def uploadedDoc (st : St) (uid : Nat) (f : FileUpload) (cn de tg : String) : DocumentRec :=
  { id := st.next_doc_id
    filename := toString st.uuid_counter ++ "_" ++ sanitize_filename f.filename
    original_filename := f.filename
    file_path := "secure_uploads/" ++ (toString st.uuid_counter ++ "_" ++ sanitize_filename f.filename)
    file_size := f.content.length
    file_type := get_file_type f.filename
    content_hash := calculate_file_hash f.content
    uploaded_at := some st.now
    user_id := uid
    case_number := cn
    tags := tg
    description := de
    is_processed := false
    processing_status := "pending" }

/-- C1: After a successful upload the stored record's `content_hash` is
the SHA-256 hex digest of the uploaded bytes, `Document.verify_integrity`
accepts the same bytes, and the verify endpoint, run on the post-upload
state against the unmodified stored file, answers 200 with
`verified = true`. -/
theorem upload_hash_verified (st : St) (uid : Nat) (f : FileUpload) (cn de tg : String)
    (u : UserRec)
    (hu : findUser st uid = some u)
    (hfn : f.filename ≠ "")
    (hext : allowed_file f.filename = true)
    (hsz : f.content.length ≤ st.max_content_length)
    (hdup : (st.documents.find? fun d' =>
      d'.content_hash == calculate_file_hash f.content) = none)
    (hfresh : ∀ d ∈ st.documents, d.id ≠ st.next_doc_id) :
    (upload_document st uid (some f) cn de tg).1.documents =
      st.documents ++ [uploadedDoc st uid f cn de tg] ∧
    (upload_document st uid (some f) cn de tg).2.status = 201 ∧
    (uploadedDoc st uid f cn de tg).content_hash = sha256Hex f.content ∧
    (uploadedDoc st uid f cn de tg).verify_integrity f.content = true ∧
    (verify_document_integrity (upload_document st uid (some f) cn de tg).1 uid
        (uploadedDoc st uid f cn de tg).id).2 =
      ⟨200, [("verified", .bool true),
        ("original_hash", .str (sha256Hex f.content)),
        ("current_hash", .str (sha256Hex f.content)),
        ("file_size", .nat f.content.length),
        ("last_modified", .nat st.now)]⟩ := by
  have h1 : (f.filename == "") = false := by simpa using hfn
  have h2 : ¬ st.max_content_length < f.content.length := by omega
  have hu2 : (st.users.find? fun v => v.id == uid) = some u := hu
  have hdup2 : (st.documents.find? fun d' =>
      d'.content_hash == sha256Hex f.content) = none := hdup
  refine ⟨?_, ?_, ?_, ?_, ?_⟩
  · simp [upload_document, hu, h1, hext, h2, hdup, log_audit_event,
      create_chain_of_custody_record, uploadedDoc]
  · simp [upload_document, hu, h1, hext, h2, hdup, log_audit_event,
      create_chain_of_custody_record]
  · rfl
  · simp [uploadedDoc, DocumentRec.verify_integrity, DocumentRec.calculate_hash,
      calculate_file_hash]
  · have hn : (st.documents.find? fun d =>
        d.id == st.next_doc_id && d.user_id == uid) = none := by
      rw [List.find?_eq_none]
      intro d hd
      simp [hfresh d hd]
    simp [upload_document, hu, hu2, h1, hext, h2, hdup, verify_document_integrity,
      findUser, findOwnedDoc, log_audit_event, create_chain_of_custody_record,
      getFile_setFile, hn, uploadedDoc, calculate_file_hash, hdup2]

set_option maxRecDepth 8000 in
/-- C1 at a concrete input: uploading the bytes `"hi"` as `report.txt`
into a fresh store yields a 201, a record whose hash is the SHA-256
digest of the bytes, and a verify call answering `verified = true`. -/
theorem upload_hash_verified_witness :
    (upload_document userSt 1 (some ⟨"report.txt", [104, 105]⟩) "" "" "[]").1.documents =
      userSt.documents ++ [uploadedDoc userSt 1 ⟨"report.txt", [104, 105]⟩ "" "" "[]"] ∧
    (upload_document userSt 1 (some ⟨"report.txt", [104, 105]⟩) "" "" "[]").2.status = 201 ∧
    (uploadedDoc userSt 1 ⟨"report.txt", [104, 105]⟩ "" "" "[]").content_hash =
      sha256Hex [104, 105] ∧
    (uploadedDoc userSt 1 ⟨"report.txt", [104, 105]⟩ "" "" "[]").verify_integrity
      [104, 105] = true ∧
    (verify_document_integrity
        (upload_document userSt 1 (some ⟨"report.txt", [104, 105]⟩) "" "" "[]").1 1
        (uploadedDoc userSt 1 ⟨"report.txt", [104, 105]⟩ "" "" "[]").id).2 =
      ⟨200, [("verified", .bool true),
        ("original_hash", .str (sha256Hex [104, 105])),
        ("current_hash", .str (sha256Hex [104, 105])),
        ("file_size", .nat 2),
        ("last_modified", .nat 1000)]⟩ :=
  upload_hash_verified userSt 1 ⟨"report.txt", [104, 105]⟩ "" "" "[]" alice
    rfl (by decide) (by decide) (by decide) rfl (by intro d hd; simp [userSt, baseSt] at hd)

/-! ## Integrity-violation auditing (C2) -/

/-- `docSt` with the stored file's bytes tampered (`[104, 106]` instead
of the hashed `[104, 105]`). -/
def tamperedSt : St := { docSt with
  files := [("secure_uploads/3_evidence.txt", [104, 106])] }

/-- C2 as amended: when the on-disk bytes no longer hash to the stored
value, the verify endpoint appends one `document_integrity_verified`
audit entry whose details record `verified = false` before answering 200
with `verified = false`; the dedicated `document_integrity_violation`
entry is the download endpoint's, appended before its 500 refusal. -/
theorem integrity_mismatch_audit (st : St) (uid did : Nat) (u : UserRec)
    (doc : DocumentRec) (content : List Nat)
    (hu : findUser st uid = some u)
    (hd : findOwnedDoc st did uid = some doc)
    (hf : getFile st.files doc.file_path = some content)
    (hmm : (sha256Hex content == doc.content_hash) = false) :
    (verify_document_integrity st uid did).2 =
      ⟨200, [("verified", .bool false),
        ("original_hash", .str doc.content_hash),
        ("current_hash", .str (sha256Hex content)),
        ("file_size", .nat doc.file_size),
        ("last_modified", .nat st.now)]⟩ ∧
    (verify_document_integrity st uid did).1.audit_logs = st.audit_logs ++
      [{ id := st.next_audit_id
         user_id := some uid
         action := "document_integrity_verified"
         resource_type := "document"
         resource_id := some (toString did)
         details := some [("filename", .str doc.original_filename),
           ("verified", .bool false),
           ("original_hash", .str doc.content_hash),
           ("current_hash", .str (sha256Hex content))]
         ip_address := st.req_ip
         user_agent := st.req_user_agent
         timestamp := some st.now
         session_id := st.req_session_id }] ∧
    (download_document st uid did).2 = err 500 "Document integrity check failed" ∧
    (download_document st uid did).1.audit_logs = st.audit_logs ++
      [{ id := st.next_audit_id
         user_id := some uid
         action := "document_integrity_violation"
         resource_type := "document"
         resource_id := some (toString did)
         details := some [("filename", .str doc.original_filename),
           ("expected_hash", .str doc.content_hash),
           ("actual_hash", .str (sha256Hex content))]
         ip_address := st.req_ip
         user_agent := st.req_user_agent
         timestamp := some st.now
         session_id := st.req_session_id }] := by
  have hmm' : (doc.content_hash == sha256Hex content) = false := by
    simp only [beq_eq_false_iff_ne] at hmm ⊢
    exact fun h => hmm h.symm
  have hvi : doc.verify_integrity content = false := by
    simp [DocumentRec.verify_integrity, DocumentRec.calculate_hash, calculate_file_hash,
      hmm']
  refine ⟨?_, ?_, ?_, ?_⟩
  · simp [verify_document_integrity, hu, hd, hf, calculate_file_hash, hmm]
  · simp [verify_document_integrity, hu, hd, hf, calculate_file_hash, hmm,
      log_audit_event]
  · simp [download_document, hu, hd, hf, hvi]
  · simp [download_document, hu, hd, hf, hvi, calculate_file_hash, log_audit_event]

set_option maxRecDepth 8000 in
/-- C2 as stated is false at this input: with the stored bytes tampered,
the verify endpoint answers `verified = false` yet no audit entry of the
call — nor any in the store — has an `integrity_violation` action; the
entry it wrote is `document_integrity_verified`. -/
theorem verify_mismatch_no_violation_entry :
    (verify_document_integrity tamperedSt 1 1).2.status = 200 ∧
    (verify_document_integrity tamperedSt 1 1).2.body.head? =
      some ("verified", .bool false) ∧
    (verify_document_integrity tamperedSt 1 1).1.audit_logs.length = 1 ∧
    (∀ e ∈ (verify_document_integrity tamperedSt 1 1).1.audit_logs,
      containsSubB "integrity_violation".toList e.action.toList = false) ∧
    ((verify_document_integrity tamperedSt 1 1).1.audit_logs.map fun e => e.action) =
      ["document_integrity_verified"] :=
  ⟨rfl, rfl, rfl, by decide, rfl⟩

set_option maxRecDepth 8000 in
/-- C2's amended claim at the same concrete input. -/
theorem integrity_mismatch_audit_witness :
    (verify_document_integrity tamperedSt 1 1).2 =
      ⟨200, [("verified", .bool false),
        ("original_hash", .str doc1.content_hash),
        ("current_hash", .str (sha256Hex [104, 106])),
        ("file_size", .nat doc1.file_size),
        ("last_modified", .nat tamperedSt.now)]⟩ ∧
    (verify_document_integrity tamperedSt 1 1).1.audit_logs = tamperedSt.audit_logs ++
      [{ id := tamperedSt.next_audit_id
         user_id := some 1
         action := "document_integrity_verified"
         resource_type := "document"
         resource_id := some (toString 1)
         details := some [("filename", .str doc1.original_filename),
           ("verified", .bool false),
           ("original_hash", .str doc1.content_hash),
           ("current_hash", .str (sha256Hex [104, 106]))]
         ip_address := tamperedSt.req_ip
         user_agent := tamperedSt.req_user_agent
         timestamp := some tamperedSt.now
         session_id := tamperedSt.req_session_id }] ∧
    (download_document tamperedSt 1 1).2 = err 500 "Document integrity check failed" ∧
    (download_document tamperedSt 1 1).1.audit_logs = tamperedSt.audit_logs ++
      [{ id := tamperedSt.next_audit_id
         user_id := some 1
         action := "document_integrity_violation"
         resource_type := "document"
         resource_id := some (toString 1)
         details := some [("filename", .str doc1.original_filename),
           ("expected_hash", .str doc1.content_hash),
           ("actual_hash", .str (sha256Hex [104, 106]))]
         ip_address := tamperedSt.req_ip
         user_agent := tamperedSt.req_user_agent
         timestamp := some tamperedSt.now
         session_id := tamperedSt.req_session_id }] :=
  integrity_mismatch_audit tamperedSt 1 1 alice doc1 [104, 106] rfl rfl rfl (by decide)

/-! ## Timeline regeneration (C8) -/

/-- The `DocumentTimeline` rows `generate_timeline` inserts: one per
extracted event, with fresh ids. -/
def timelineRowsOf (st : St) (did : Nat) (text : String) : List TimelineRec :=
  (extract_timeline_events_basic text.toList).enum.map fun p =>
    { id := st.next_timeline_id + p.1
      document_id := did
      event_date := p.2.date
      event_type := "extracted"
      event_description := p.2.description
      page_number := none
      confidence_score := p.2.confidence
      extracted_at := some st.now }

/-- C8: a successful timeline generation first deletes every stored
`DocumentTimeline` row of the document and then inserts exactly the
freshly extracted events, so afterwards the document's stored timeline
is exactly the latest extraction result — repeated calls can never
accumulate duplicates. -/
theorem generate_timeline_replaces (st : St) (uid did : Nat) (u : UserRec)
    (doc : DocumentRec) (content : List Nat) (text : String)
    (hu : findUser st uid = some u)
    (hd : findOwnedDoc st did uid = some doc)
    (hf : getFile st.files doc.file_path = some content)
    (htext : text ≠ "") :
    (generate_timeline st uid did (some text)).2.status = 200 ∧
    (generate_timeline st uid did (some text)).1.timelines =
      (st.timelines.filter fun t => !(t.document_id == did)) ++
        timelineRowsOf st did text ∧
    ((generate_timeline st uid did (some text)).1.timelines.filter
        fun t => t.document_id == did) = timelineRowsOf st did text := by
  have ht : (text == "") = false := by simpa using htext
  refine ⟨?_, ?_, ?_⟩
  · simp [generate_timeline, hu, hd, hf, ht, log_audit_event,
      create_chain_of_custody_record]
  · simp [generate_timeline, hu, hd, hf, ht, log_audit_event,
      create_chain_of_custody_record, timelineRowsOf]
  · have h2 : (generate_timeline st uid did (some text)).1.timelines =
        (st.timelines.filter fun t => !(t.document_id == did)) ++
          timelineRowsOf st did text := by
      simp [generate_timeline, hu, hd, hf, ht, log_audit_event,
        create_chain_of_custody_record, timelineRowsOf]
    rw [h2, List.filter_append]
    have hleft : ((st.timelines.filter fun t => !(t.document_id == did)).filter
        fun t => t.document_id == did) = [] := by
      rw [List.filter_eq_nil_iff]
      intro t htl
      have := (List.mem_filter.mp htl).2
      simp at this
      simp [this]
    have hright : ((timelineRowsOf st did text).filter
        fun t => t.document_id == did) = timelineRowsOf st did text := by
      rw [List.filter_eq_self]
      intro t htl
      obtain ⟨p, _, rfl⟩ := List.mem_map.mp htl
      simp
    rw [hleft, hright, List.nil_append]

/-- A stale timeline row for document 1, to be cleared on regeneration. -/
def staleRow : TimelineRec := {
  id := 1
  document_id := 1
  event_date := 20200101
  event_type := "extracted"
  event_description := "old"
  page_number := none
  confidence_score := 7
  extracted_at := some 1 }

def timelineSt : St := { docSt with timelines := [staleRow], next_timeline_id := 2 }

/-- C8 at a concrete input: regenerating against text with one parseable
date removes the stale row and stores exactly the fresh extraction. -/
theorem generate_timeline_replaces_witness :
    (generate_timeline timelineSt 1 1
        (some "The contract was signed on 1/2/2023 by both parties")).2.status = 200 ∧
    (generate_timeline timelineSt 1 1
        (some "The contract was signed on 1/2/2023 by both parties")).1.timelines =
      (timelineSt.timelines.filter fun t => !(t.document_id == 1)) ++
        timelineRowsOf timelineSt 1 "The contract was signed on 1/2/2023 by both parties" ∧
    ((generate_timeline timelineSt 1 1
        (some "The contract was signed on 1/2/2023 by both parties")).1.timelines.filter
      fun t => t.document_id == 1) =
      timelineRowsOf timelineSt 1 "The contract was signed on 1/2/2023 by both parties" :=
  generate_timeline_replaces timelineSt 1 1 alice doc1 [104, 105]
    "The contract was signed on 1/2/2023 by both parties" rfl rfl rfl (by decide)

/-! ## Audit entries of the state-changing endpoints (C3) -/

set_option maxRecDepth 8000 in
/-- C3 as stated is false at this input: one successful upload call
produces *two* audit entries (the chain-of-custody record and the
`document_uploaded` event), not exactly one. -/
theorem upload_produces_two_audit_entries :
    (upload_document userSt 1 (some ⟨"report.txt", [104, 105]⟩) "" "" "[]").2.status =
      201 ∧
    ((upload_document userSt 1 (some ⟨"report.txt", [104, 105]⟩) "" "" "[]").1.audit_logs.map
      fun e => e.action) = ["chain_of_custody_uploaded", "document_uploaded"] :=
  ⟨rfl, rfl⟩

/-- C3 as amended: each successful call produces exactly one audit entry
carrying the endpoint's primary action — `document_uploaded`,
`document_deleted`, `login_successful`, `document_redacted`,
`data_exported` — always with a non-null (`some now`) timestamp; upload,
delete and redact additionally produce exactly one preceding
chain-of-custody entry, while login and export produce only the single
entry. -/
theorem state_changing_audit_entries (st : St) :
    (∀ uid (f : FileUpload) cn de tg u, findUser st uid = some u → f.filename ≠ "" →
      allowed_file f.filename = true → f.content.length ≤ st.max_content_length →
      (st.documents.find? fun d' =>
        d'.content_hash == calculate_file_hash f.content) = none →
      ((upload_document st uid (some f) cn de tg).1.audit_logs.map fun e => e.action) =
        (st.audit_logs.map fun e => e.action) ++
          ["chain_of_custody_uploaded", "document_uploaded"] ∧
      ∀ e ∈ (upload_document st uid (some f) cn de tg).1.audit_logs.drop
        st.audit_logs.length, e.timestamp = some st.now) ∧
    (∀ uid did u doc, findUser st uid = some u →
      (u.role == "admin" || u.role == "forensic_analyst") = true →
      findOwnedDoc st did uid = some doc →
      ((delete_document st uid did).1.audit_logs.map fun e => e.action) =
        (st.audit_logs.map fun e => e.action) ++
          ["chain_of_custody_deleted", "document_deleted"] ∧
      ∀ e ∈ (delete_document st uid did).1.audit_logs.drop st.audit_logs.length,
        e.timestamp = some st.now) ∧
    (∀ u0 pw usr, stripLower u0 ≠ "" → pw ≠ "" →
      (st.users.find? fun v => v.username == stripLower u0) = some usr →
      usr.check_password pw = true → usr.is_active = true →
      ((login st u0 pw).1.audit_logs.map fun e => e.action) =
        (st.audit_logs.map fun e => e.action) ++ ["login_successful"] ∧
      ∀ e ∈ (login st u0 pw).1.audit_logs.drop st.audit_logs.length,
        e.timestamp = some st.now) ∧
    (∀ uid did ty tx u doc content text, findUser st uid = some u →
      findOwnedDoc st did uid = some doc →
      getFile st.files doc.file_path = some content → text ≠ "" →
      ((redact_document st uid did ty tx (some text)).1.audit_logs.map
        fun e => e.action) =
        (st.audit_logs.map fun e => e.action) ++
          ["chain_of_custody_redacted", "document_redacted"] ∧
      ∀ e ∈ (redact_document st uid did ty tx (some text)).1.audit_logs.drop
        st.audit_logs.length, e.timestamp = some st.now) ∧
    (∀ uid ty u, findUser st uid = some u →
      (u.role == "admin" || u.role == "forensic_analyst") = true →
      ((export_analysis_data st uid ty).1.audit_logs.map fun e => e.action) =
        (st.audit_logs.map fun e => e.action) ++ ["data_exported"] ∧
      ∀ e ∈ (export_analysis_data st uid ty).1.audit_logs.drop st.audit_logs.length,
        e.timestamp = some st.now) := by
  refine ⟨?_, ?_, ?_, ?_, ?_⟩
  · intro uid f cn de tg u hu hfn hext hsz hdup
    have h1 : (f.filename == "") = false := by simpa using hfn
    have h2 : ¬ st.max_content_length < f.content.length := by omega
    constructor
    · simp [upload_document, hu, h1, hext, h2, hdup, log_audit_event,
        create_chain_of_custody_record]
    · intro e he
      simp [upload_document, hu, h1, hext, h2, hdup, log_audit_event,
        create_chain_of_custody_record, List.drop_left] at he
      rcases he with h | h <;> simp [h]
  · intro uid did u doc hu hr hd
    constructor
    · simp [delete_document, hu, hr, hd, log_audit_event,
        create_chain_of_custody_record]
    · intro e he
      simp [delete_document, hu, hr, hd, log_audit_event,
        create_chain_of_custody_record, List.drop_left] at he
      rcases he with h | h <;> simp [h]
  · intro u0 pw usr hne hpw hfind hchk hact
    have h1 : (stripLower u0 == "" || pw == "") = false := by
      simp [hne, hpw]
    constructor
    · simp [login, h1, hfind, hchk, hact, log_audit_event]
    · intro e he
      simp [login, h1, hfind, hchk, hact, log_audit_event, List.drop_left] at he
      simp [he]
  · intro uid did ty tx u doc content text hu hd hf htext
    have ht : (text == "") = false := by simpa using htext
    constructor
    · simp [redact_document, hu, hd, hf, ht, log_audit_event,
        create_chain_of_custody_record]
    · intro e he
      simp [redact_document, hu, hd, hf, ht, log_audit_event,
        create_chain_of_custody_record, List.drop_left] at he
      rcases he with h | h <;> simp [h]
  · intro uid ty u hu hr
    constructor
    · simp [export_analysis_data, hu, hr, log_audit_event]
    · intro e he
      simp [export_analysis_data, hu, hr, log_audit_event, List.drop_left] at he
      simp [he]

/-- A document owned by the admin (user 2), for the delete scenario. -/
def doc2 : DocumentRec := {
  id := 2
  filename := "4_notes.txt"
  original_filename := "notes.txt"
  file_path := "secure_uploads/4_notes.txt"
  file_size := 3
  file_type := "document"
  content_hash := calculate_file_hash [1, 2, 3]
  uploaded_at := some 1
  user_id := 2
  case_number := ""
  tags := "[]"
  description := ""
  is_processed := false
  processing_status := "pending" }

def adminDocSt : St := { userSt with
  documents := [doc2]
  files := [("secure_uploads/4_notes.txt", [1, 2, 3])]
  next_doc_id := 3 }

set_option maxRecDepth 8000 in
/-- C3's amended claim at concrete inputs: the exact audit actions of one
successful upload, delete, login, redact and export call. -/
theorem state_changing_audit_entries_witness :
    ((upload_document userSt 1 (some ⟨"report.txt", [104, 105]⟩) "" "" "[]").1.audit_logs.map
      fun e => e.action) = ["chain_of_custody_uploaded", "document_uploaded"] ∧
    ((delete_document adminDocSt 2 2).1.audit_logs.map fun e => e.action) =
      ["chain_of_custody_deleted", "document_deleted"] ∧
    ((login userSt "alice" "Aa1!aaaa").1.audit_logs.map fun e => e.action) =
      ["login_successful"] ∧
    ((redact_document docSt 1 1 "pii" "***REDACTED***"
        (some "Call 555-123-4567 right away")).1.audit_logs.map fun e => e.action) =
      ["chain_of_custody_redacted", "document_redacted"] ∧
    ((export_analysis_data userSt 2 "full").1.audit_logs.map fun e => e.action) =
      ["data_exported"] := by
  refine ⟨?_, ?_, ?_, ?_, ?_⟩
  · have h := ((state_changing_audit_entries userSt).1 1 ⟨"report.txt", [104, 105]⟩
      "" "" "[]" alice rfl (by decide) (by decide) (by decide) rfl).1
    simpa [userSt, baseSt] using h
  · have h := ((state_changing_audit_entries adminDocSt).2.1 2 2 rootAnalyst doc2
      rfl (by decide) rfl).1
    simpa [adminDocSt, userSt, baseSt] using h
  · have h := ((state_changing_audit_entries userSt).2.2.1 "alice" "Aa1!aaaa" alice
      (by decide) (by decide) rfl rfl rfl).1
    simpa [userSt, baseSt] using h
  · have h := ((state_changing_audit_entries docSt).2.2.2.1 1 1 "pii" "***REDACTED***"
      alice doc1 [104, 105] "Call 555-123-4567 right away" rfl rfl rfl (by decide)).1
    simpa [docSt, userSt, baseSt] using h
  · have h := ((state_changing_audit_entries userSt).2.2.2.2 2 "full" rootAnalyst
      rfl (by decide)).1
    simpa [userSt, baseSt] using h

/-! ## Redaction of a social-security number (C7)

Toolkit about substring occurrence (`InfixOf`), Python `str.replace`
(`pyReplace`) and the `re.finditer` scan (`scanAux`), leading to the
redaction theorem. -/

/-- The SSN test string `123-45-6789` of the specification. -/
def ssnStr : List Char := ['1', '2', '3', '-', '4', '5', '-', '6', '7', '8', '9']

/-- The default redaction marker of `redact_text`. -/
def markerStr : List Char := "***REDACTED***".toList

/-- `p` is a suffix of `s`. -/
def SfxOf (p s : List Char) : Prop := ∃ x, s = x ++ p

theorem pfxOf_infixOf {p s : List Char} (h : PfxOf p s) : InfixOf p s := by
  obtain ⟨y, rfl⟩ := h
  exact ⟨[], y, rfl⟩

theorem infixOf_self (s : List Char) : InfixOf s s := ⟨[], [], by simp⟩

theorem infixOf_trans {p q s : List Char} (h1 : InfixOf p q) (h2 : InfixOf q s) :
    InfixOf p s := by
  obtain ⟨x, y, rfl⟩ := h1
  obtain ⟨u, v, rfl⟩ := h2
  exact ⟨u ++ x, y ++ v, by simp⟩

theorem infixOf_cons_split {p : List Char} {c : Char} {s : List Char}
    (h : InfixOf p (c :: s)) : PfxOf p (c :: s) ∨ InfixOf p s := by
  obtain ⟨x, y, hx⟩ := h
  cases x with
  | nil => exact Or.inl ⟨y, by simpa using hx⟩
  | cons d x' =>
    injection hx with h1 h2
    exact Or.inr ⟨x', y, h2⟩

theorem infixOf_cons_lift {p : List Char} {c : Char} {s : List Char}
    (h : InfixOf p s) : InfixOf p (c :: s) := by
  obtain ⟨x, y, rfl⟩ := h
  exact ⟨c :: x, y, rfl⟩

theorem infixOf_drop (s : List Char) (n : Nat) : InfixOf (s.drop n) s :=
  ⟨s.take n, [], by simp⟩

theorem isPfx_iff {p s : List Char} : isPfx p s = true ↔ PfxOf p s := by
  induction p generalizing s with
  | nil =>
    simp only [isPfx, PfxOf]
    exact ⟨fun _ => ⟨s, by simp⟩, fun _ => trivial⟩
  | cons a p' ih =>
    cases s with
    | nil =>
      simp only [isPfx, PfxOf]
      constructor
      · intro h
        exact absurd h (by simp)
      · rintro ⟨y, hy⟩
        exact absurd hy (by simp)
    | cons c s' =>
      simp only [isPfx, Bool.and_eq_true, beq_iff_eq]
      constructor
      · rintro ⟨rfl, h⟩
        obtain ⟨y, rfl⟩ := ih.mp h
        exact ⟨y, rfl⟩
      · rintro ⟨y, hy⟩
        injection hy with h1 h2
        exact ⟨h1.symm, ih.mpr ⟨y, h2⟩⟩

theorem pfxOf_trans {p q r : List Char} (h1 : PfxOf p q) (h2 : PfxOf q r) : PfxOf p r := by
  obtain ⟨y, rfl⟩ := h1
  obtain ⟨z, rfl⟩ := h2
  exact ⟨y ++ z, by simp⟩

theorem pfxOf_append_split {p u v : List Char} (h : PfxOf p (u ++ v)) :
    PfxOf p u ∨ ∃ p2, p = u ++ p2 ∧ PfxOf p2 v := by
  induction u generalizing p with
  | nil => exact Or.inr ⟨p, by simp, h⟩
  | cons c u' ih =>
    cases p with
    | nil => exact Or.inl ⟨c :: u', rfl⟩
    | cons d p' =>
      obtain ⟨y, hy⟩ := h
      injection hy with h1 h2
      subst h1
      rcases ih ⟨y, h2⟩ with hl | ⟨p2, rfl, hp2⟩
      · obtain ⟨z, rfl⟩ := hl
        exact Or.inl ⟨z, rfl⟩
      · exact Or.inr ⟨p2, rfl, hp2⟩

theorem infixOf_append_split {p u v : List Char} (h : InfixOf p (u ++ v)) :
    InfixOf p u ∨ InfixOf p v ∨
      ∃ p1 p2, p = p1 ++ p2 ∧ p1 ≠ [] ∧ p2 ≠ [] ∧ SfxOf p1 u ∧ PfxOf p2 v := by
  induction u generalizing p with
  | nil => exact Or.inr (Or.inl (by simpa using h))
  | cons c u' ih =>
    have h' : InfixOf p (c :: (u' ++ v)) := by simpa using h
    rcases infixOf_cons_split h' with hp | hi
    · rcases pfxOf_append_split (u := c :: u') (v := v) (by simpa using hp) with
        h1 | ⟨p2, rfl, hp2⟩
      · exact Or.inl (pfxOf_infixOf h1)
      · cases p2 with
        | nil => exact Or.inl (by simpa using infixOf_self (c :: u'))
        | cons e p2' =>
          exact Or.inr (Or.inr ⟨c :: u', e :: p2', rfl, by simp, by simp,
            ⟨[], rfl⟩, hp2⟩)
    · rcases ih hi with h1 | h2 | ⟨p1, p2, rfl, hne1, hne2, ⟨x, rfl⟩, hp2⟩
      · exact Or.inl (infixOf_cons_lift h1)
      · exact Or.inr (Or.inl h2)
      · exact Or.inr (Or.inr ⟨p1, p2, rfl, hne1, hne2, ⟨c :: x, rfl⟩, hp2⟩)

theorem infixOf_marker_append {p m w : List Char} (hp : p ≠ [])
    (hd : ∀ c ∈ p, c ∉ m) (_hm : m ≠ []) (h : InfixOf p (m ++ w)) : InfixOf p w := by
  rcases infixOf_append_split h with h1 | h2 | ⟨p1, p2, heq, hne1, _, ⟨x, hx⟩, _⟩
  · obtain ⟨c, p', rfl⟩ := List.exists_cons_of_ne_nil hp
    obtain ⟨u, v, hm'⟩ := h1
    have hcm : c ∈ m := by
      rw [hm']
      simp
    exact absurd hcm (hd c (by simp))
  · exact h2
  · obtain ⟨c, p1', rfl⟩ := List.exists_cons_of_ne_nil hne1
    have hcm : c ∈ m := by
      rw [hx]
      simp
    have hcp : c ∈ p := by
      rw [heq]
      simp
    exact absurd hcm (hd c hcp)

/-- The replaced text between markers: `joinTail m [q₁, q₂] = m ++ q₁ ++ m ++ q₂`. -/
def joinTail (m : List Char) : List (List Char) → List Char
  | [] => []
  | q :: qs => m ++ (q ++ joinTail m qs)

theorem notInfix_join {p m : List Char} (hp : p ≠ []) (hm : m ≠ [])
    (hd : ∀ c ∈ p, c ∉ m) :
    ∀ (rest : List (List Char)) (p0 : List Char), ¬ InfixOf p p0 →
      (∀ q ∈ rest, ¬ InfixOf p q) → ¬ InfixOf p (p0 ++ joinTail m rest) := by
  intro rest
  induction rest with
  | nil =>
    intro p0 h0 _
    simpa [joinTail] using h0
  | cons q qs ih =>
    intro p0 h0 hr h
    have h' : InfixOf p (p0 ++ (m ++ (q ++ joinTail m qs))) := by
      simpa [joinTail] using h
    rcases infixOf_append_split h' with h1 | h2 | ⟨p1, p2, heq, _, hne2, _, hp2⟩
    · exact h0 h1
    · have h3 : InfixOf p (q ++ joinTail m qs) :=
        infixOf_marker_append hp hd hm h2
      exact ih q (hr q (by simp)) (fun r hrr => hr r (by simp [hrr])) h3
    · obtain ⟨c, p2', rfl⟩ := List.exists_cons_of_ne_nil hne2
      obtain ⟨cm, m', rfl⟩ := List.exists_cons_of_ne_nil hm
      obtain ⟨y, hy⟩ := hp2
      injection hy with hcc _
      have hcp : c ∈ p := by
        rw [heq]
        simp
      exact absurd (by rw [hcc]; simp : c ∈ cm :: m') (hd c hcp)

theorem pyReplaceAux_nil_pattern (m : List Char) :
    ∀ fuel s, pyReplaceAux [] m fuel s = s := by
  intro fuel
  induction fuel with
  | zero => intro s; rfl
  | succ fuel _ =>
    intro s
    cases s with
    | nil => rfl
    | cons c cs => simp [pyReplaceAux]

/-- `str.replace` either leaves the string unchanged or inserts the
replacement text somewhere. -/
theorem pyReplaceAux_eq_or_marker (g m : List Char) :
    ∀ fuel s, pyReplaceAux g m fuel s = s ∨ InfixOf m (pyReplaceAux g m fuel s) := by
  intro fuel
  induction fuel with
  | zero => intro s; exact Or.inl rfl
  | succ fuel ih =>
    intro s
    cases s with
    | nil => exact Or.inl rfl
    | cons c cs =>
      by_cases hg : g.length = 0
      · simp [pyReplaceAux, hg]
      · by_cases hp : isPfx g (c :: cs) = true
        · refine Or.inr ?_
          simp only [pyReplaceAux, hg, if_false, hp, if_true]
          exact ⟨[], pyReplaceAux g m fuel ((c :: cs).drop g.length), rfl⟩
        · simp only [pyReplaceAux, hg, if_false, hp]
          rcases ih cs with h | h
          · exact Or.inl (by simp [h])
          · exact Or.inr (by simpa using infixOf_cons_lift (c := c) h)

/-- If the pattern occurs, `str.replace` inserts the replacement. -/
theorem pyReplaceAux_marker_of_occurs (g m : List Char) (hg : g ≠ []) :
    ∀ fuel s, s.length < fuel → InfixOf g s →
      InfixOf m (pyReplaceAux g m fuel s) := by
  intro fuel
  induction fuel with
  | zero => intro s h; omega
  | succ fuel ih =>
    intro s hlen hocc
    cases s with
    | nil =>
      obtain ⟨x, y, hx⟩ := hocc
      obtain ⟨c, g', rfl⟩ := List.exists_cons_of_ne_nil hg
      simp at hx
    | cons c cs =>
      have hg0 : ¬ g.length = 0 := by
        simpa [List.length_eq_zero] using hg
      by_cases hp : isPfx g (c :: cs) = true
      · simp only [pyReplaceAux, hg0, if_false, hp, if_true]
        exact ⟨[], _, rfl⟩
      · simp only [pyReplaceAux, hg0, if_false, hp]
        have hocc' : InfixOf g cs := by
          rcases infixOf_cons_split hocc with h | h
          · exact absurd (isPfx_iff.mpr h) hp
          · exact h
        have := ih cs (by simpa using Nat.lt_of_succ_lt_succ hlen) hocc'
        exact infixOf_cons_lift this

/-- Structure of a `str.replace` result: the surviving pieces of the
subject interleaved with copies of the replacement; every piece is a
substring of the subject, the first piece is a prefix of it, and no
piece contains the pattern. -/
theorem pyReplaceAux_pieces (g m : List Char) (hg : g ≠ []) :
    ∀ fuel s, s.length < fuel →
      ∃ p0 rest, pyReplaceAux g m fuel s = p0 ++ joinTail m rest ∧
        PfxOf p0 s ∧ (∀ q ∈ rest, InfixOf q s) ∧
        ¬ InfixOf g p0 ∧ (∀ q ∈ rest, ¬ InfixOf g q) := by
  intro fuel
  induction fuel with
  | zero =>
    intro s h
    omega
  | succ fuel ih =>
    intro s hlen
    have hg1 : 1 ≤ g.length := by
      cases g with
      | nil => exact absurd rfl hg
      | cons a g' => simp
    cases s with
    | nil =>
      refine ⟨[], [], by simp [pyReplaceAux, joinTail], ⟨[], rfl⟩, by simp, ?_, by simp⟩
      rintro ⟨x, y, hx⟩
      obtain ⟨c, g', rfl⟩ := List.exists_cons_of_ne_nil hg
      simp at hx
    | cons c cs =>
      have hg0 : ¬ g.length = 0 := by simpa [List.length_eq_zero] using hg
      by_cases hp : isPfx g (c :: cs) = true
      · have hlt : ((c :: cs).drop g.length).length < fuel := by
          simp only [List.length_cons] at hlen
          simp only [List.length_drop, List.length_cons]
          omega
        obtain ⟨p0', rest', heq, hpfx, hinf, hng, hngr⟩ :=
          ih ((c :: cs).drop g.length) hlt
        refine ⟨[], p0' :: rest', ?_, ⟨c :: cs, by simp⟩, ?_, ?_, ?_⟩
        · simp only [pyReplaceAux, hg0, if_false, hp, if_true, heq, joinTail]
          simp
        · intro q hq
          rcases List.mem_cons.mp hq with rfl | hq'
          · exact infixOf_trans (pfxOf_infixOf hpfx) (infixOf_drop _ _)
          · exact infixOf_trans (hinf q hq') (infixOf_drop _ _)
        · rintro ⟨x, y, hx⟩
          obtain ⟨d, g', rfl⟩ := List.exists_cons_of_ne_nil hg
          simp at hx
        · intro q hq
          rcases List.mem_cons.mp hq with rfl | hq'
          · exact hng
          · exact hngr q hq'
      · have hlt : cs.length < fuel := by
          simpa using Nat.lt_of_succ_lt_succ hlen
        obtain ⟨p0', rest', heq, hpfx, hinf, hng, hngr⟩ := ih cs hlt
        refine ⟨c :: p0', rest', ?_, ?_, ?_, ?_, ?_⟩
        · simp only [pyReplaceAux, hg0, if_false, hp, heq]
          simp
        · obtain ⟨y, rfl⟩ := hpfx
          exact ⟨y, rfl⟩
        · intro q hq
          exact infixOf_cons_lift (hinf q hq)
        · intro hx
          rcases infixOf_cons_split hx with h1 | h2
          · have hc : PfxOf (c :: p0') (c :: cs) := by
              obtain ⟨y, rfl⟩ := hpfx
              exact ⟨y, by simp⟩
            exact hp (isPfx_iff.mpr (pfxOf_trans h1 hc))
          · exact hng h2
        · exact hngr

/-- `str.replace` cannot create an occurrence of `p` whose characters
are disjoint from the replacement text. -/
theorem pyReplace_keeps_absent {s g m p : List Char} (hp : p ≠ []) (hm : m ≠ [])
    (hd : ∀ c ∈ p, c ∉ m) (hs : ¬ InfixOf p s) : ¬ InfixOf p (pyReplace s g m) := by
  by_cases hg : g = []
  · subst hg
    rw [pyReplace, pyReplaceAux_nil_pattern]
    exact hs
  · obtain ⟨p0, rest, heq, hpfx, hinf, _, _⟩ :=
      pyReplaceAux_pieces g m hg (s.length + 1) s (by omega)
    rw [pyReplace, heq]
    apply notInfix_join hp hm hd rest p0
    · exact fun h => hs (infixOf_trans h (pfxOf_infixOf hpfx))
    · intro q hq h
      exact hs (infixOf_trans h (hinf q hq))

/-- `str.replace` removes every occurrence of the pattern when the
replacement text cannot recreate one. -/
theorem pyReplace_removes_pattern {s g m : List Char} (hg : g ≠ []) (hm : m ≠ [])
    (hd : ∀ c ∈ g, c ∉ m) : ¬ InfixOf g (pyReplace s g m) := by
  obtain ⟨p0, rest, heq, _, _, hng, hngr⟩ :=
    pyReplaceAux_pieces g m hg (s.length + 1) s (by omega)
  rw [pyReplace, heq]
  exact notInfix_join hg hm hd rest p0 hng hngr

/-- A digit is a word character (`\w` includes `\d`). -/
theorem isWordCh_of_digit {c : Char} (h : isDigitCh c = true) : isWordCh c = true := by
  simp only [isDigitCh] at h
  simp [isWordCh, Char.isAlphanum, h]

/-- Index-wise reading of the SSN shape test. -/
theorem ssnShape_spec {g : List Char} (h : ssnShape g = true) :
    g.length = 11 ∧ ∀ i, i < 11 →
      (if i = 3 ∨ i = 6 then g.getD i ' ' = '-' else isDigitCh (g.getD i ' ') = true) := by
  simp only [ssnShape, Bool.and_eq_true, beq_iff_eq, List.all_eq_true, List.mem_range] at h
  obtain ⟨hlen, hall⟩ := h
  refine ⟨hlen, fun i hi => ?_⟩
  have := hall i hi
  by_cases h36 : i = 3 ∨ i = 6
  · have hcond : (i == 3 || i == 6) = true := by
      rcases h36 with rfl | rfl <;> simp
    rw [if_pos h36]
    simpa [hcond] using this
  · have hcond : (i == 3 || i == 6) = false := by
      push_neg at h36
      simp [h36.1, h36.2]
    rw [if_neg h36]
    simpa [hcond] using this

/-- What a successful SSN match tells us: the previous character is
non-word, the match is the 11-character head, and it has the SSN shape. -/
theorem ssnAt_some {prev : Option Char} {cs g : List Char}
    (h : ssnAt prev cs = some g) :
    wordOpt prev = false ∧ g = cs.take 11 ∧ ssnShape g = true := by
  simp only [ssnAt] at h
  by_cases hw : wordOpt prev = true
  · rw [if_pos hw] at h
    exact absurd h (by simp)
  · rw [if_neg hw] at h
    refine ⟨by simpa using hw, ?_⟩
    by_cases hc : (ssnShape (cs.take 11) && !wordOpt ((cs.drop 11).head?)) = true
    · rw [if_pos hc] at h
      obtain ⟨h1, _⟩ : ssnShape (cs.take 11) = true ∧ (!wordOpt ((cs.drop 11).head?)) = true := by
        simpa using hc
      cases h
      exact ⟨rfl, h1⟩
    · rw [if_neg hc] at h
      exact absurd h (by simp)

/-- Unfolding `scanAux` at a successful non-empty match. -/
theorem scanAux_cons_match (mAt : Matcher) (fuel : Nat) (prev : Option Char)
    (c : Char) (cs : List Char) (pos : Nat) {g : List Char}
    (h : mAt prev (c :: cs) = some g) (hg : g ≠ []) :
    scanAux mAt (fuel + 1) prev (c :: cs) pos
      = (pos, g) :: scanAux mAt fuel (some (g.getLastD c)) ((c :: cs).drop g.length)
          (pos + g.length) := by
  have hlen : (g.length == 0) = false := by
    simp [List.length_eq_zero, hg]
  rw [scanAux, h]
  simp [hlen]

/-- Unfolding `scanAux` at a failed match. -/
theorem scanAux_cons_none (mAt : Matcher) (fuel : Nat) (prev : Option Char)
    (c : Char) (cs : List Char) (pos : Nat) (h : mAt prev (c :: cs) = none) :
    scanAux mAt (fuel + 1) prev (c :: cs) pos = scanAux mAt fuel (some c) cs (pos + 1) := by
  rw [scanAux, h]

/-- Every reported match starts at or after the scan position. -/
theorem scanAux_start_ge (mAt : Matcher) :
    ∀ fuel (prev : Option Char) (cs : List Char) (pos : Nat),
      ∀ m ∈ scanAux mAt fuel prev cs pos, pos ≤ m.1 := by
  intro fuel
  induction fuel with
  | zero =>
    intro prev cs pos m hm
    simp [scanAux] at hm
  | succ fuel ih =>
    intro prev cs pos m hm
    cases cs with
    | nil => simp [scanAux] at hm
    | cons c cs =>
      cases hmt : mAt prev (c :: cs) with
      | none =>
        rw [scanAux_cons_none mAt fuel prev c cs pos hmt] at hm
        have := ih (some c) cs (pos + 1) m hm
        omega
      | some g =>
        by_cases hg : g = []
        · subst hg
          rw [scanAux, hmt] at hm
          simp only [List.length_nil] at hm
          have := ih (some c) cs (pos + 1) m hm
          omega
        · rw [scanAux_cons_match mAt fuel prev c cs pos hmt hg] at hm
          rcases List.mem_cons.mp hm with rfl | hm'
          · exact Nat.le_refl _
          · have := ih (some (g.getLastD c)) ((c :: cs).drop g.length) (pos + g.length) m hm'
            omega

/-- The character preceding a fixed suffix position, threaded through a
`cons` step of the scan. -/
theorem getLast?_or_cons (c : Char) (a' : List Char) (prev : Option Char) :
    ((c :: a').getLast?).or prev = (a'.getLast?).or (some c) := by
  cases a' with
  | nil => simp
  | cons d a'' =>
    rw [List.getLast?_cons_cons]
    obtain ⟨x, hx⟩ : ∃ x, (d :: a'').getLast? = some x := by
      cases h : (d :: a'').getLast? with
      | none => exact absurd (List.getLast?_eq_none_iff.mp h) (by simp)
      | some x => exact ⟨x, rfl⟩
    rw [hx]
    rfl

/-- Dropping a true prefix keeps the last element. -/
theorem getLast?_drop_ne_nil {l : List Char} {n : Nat} (h : l.drop n ≠ []) :
    (l.drop n).getLast? = l.getLast? := by
  obtain ⟨x, hx⟩ : ∃ x, (l.drop n).getLast? = some x := by
    cases hh : (l.drop n).getLast? with
    | none => exact absurd (List.getLast?_eq_none_iff.mp hh) h
    | some x => exact ⟨x, rfl⟩
  conv_rhs => rw [← List.take_append_drop n l]
  rw [List.getLast?_append, hx]
  rfl

/-- Scan analysis for the SSN pattern: on a subject `a ++ (ssnStr ++ b)`
whose `ssnStr` occurrence is flanked by word boundaries, `re.finditer`
reports exactly one match starting at that occurrence, and any match
reported at that position is `ssnStr` itself. -/
theorem ssn_scan_main (b : List Char) (hb : wordOpt b.head? = false) :
    ∀ fuel (a : List Char) (prev : Option Char) (pos : Nat),
      a.length + 11 + b.length < fuel →
      wordOpt (a.getLast?.or prev) = false →
      ((scanAux ssnAt fuel prev (a ++ (ssnStr ++ b)) pos).countP
          (fun m => m.1 == pos + a.length) = 1 ∧
        ∀ m ∈ scanAux ssnAt fuel prev (a ++ (ssnStr ++ b)) pos,
          m.1 = pos + a.length → m.2 = ssnStr) := by
  intro fuel
  induction fuel with
  | zero =>
    intro a prev pos hlen hbd
    exact absurd hlen (by omega)
  | succ f ih =>
    intro a prev pos hlen hbd
    cases a with
    | nil =>
      have hw : wordOpt prev = false := by
        simpa [List.getLast?_nil, Option.none_or] using hbd
      have ht : (ssnStr ++ b).take 11 = ssnStr := List.take_left' rfl
      have hd : (ssnStr ++ b).drop 11 = b := List.drop_left' rfl
      have hshape : ssnShape ssnStr = true := by decide
      have hm : ssnAt prev (ssnStr ++ b) = some ssnStr := by
        simp [ssnAt, hw, ht, hd, hb, hshape]
      have hcons : ssnStr ++ b
          = '1' :: ('2' :: '3' :: '-' :: '4' :: '5' :: '-' :: '6' :: '7' :: '8' :: '9' :: b) := rfl
      rw [hcons] at hm
      have hstep : scanAux ssnAt (f + 1) prev (ssnStr ++ b) pos
          = (pos, ssnStr) :: scanAux ssnAt f (some '9') b (pos + 11) := by
        rw [hcons, scanAux_cons_match ssnAt f prev '1' _ pos hm (by decide)]
        rfl
      simp only [List.nil_append, List.length_nil, Nat.add_zero]
      rw [hstep]
      constructor
      · rw [List.countP_cons]
        have h0 : List.countP (fun m => m.1 == pos)
            (scanAux ssnAt f (some '9') b (pos + 11)) = 0 := by
          rw [List.countP_eq_zero]
          intro m hm'
          have := scanAux_start_ge ssnAt f (some '9') b (pos + 11) m hm'
          simp only [beq_iff_eq]
          omega
        rw [h0]
        simp
      · intro m hm'
        rcases List.mem_cons.mp hm' with rfl | hm''
        · intro _
          rfl
        · intro heq
          have := scanAux_start_ge ssnAt f (some '9') b (pos + 11) m hm''
          omega
    | cons c a' =>
      have hk1 : (c :: a').length = a'.length + 1 := by simp
      simp only [List.cons_append]
      cases hmt : ssnAt prev (c :: (a' ++ (ssnStr ++ b))) with
      | none =>
        rw [scanAux_cons_none ssnAt f prev c _ pos hmt]
        have hbd' : wordOpt (a'.getLast?.or (some c)) = false := by
          rw [← getLast?_or_cons c a' prev]
          exact hbd
        have hlen' : a'.length + 11 + b.length < f := by
          rw [hk1] at hlen
          omega
        have hmain := ih a' (some c) (pos + 1) hlen' hbd'
        simp only [List.length_cons]
        rw [show pos + (a'.length + 1) = (pos + 1) + a'.length from by omega]
        exact hmain
      | some g =>
        obtain ⟨hw, hgtake, hgshape⟩ := ssnAt_some hmt
        have hglen : g.length = 11 := (ssnShape_spec hgshape).1
        have hgne : g ≠ [] := by
          intro h
          rw [h] at hglen
          simp at hglen
        obtain ⟨lc, hlc⟩ : ∃ x, (c :: a').getLast? = some x :=
          ⟨(c :: a').getLast (by simp), List.getLast?_eq_getLast _ (by simp)⟩
        have hlcw : isWordCh lc = false := by
          have h := hbd
          rw [hlc] at h
          simpa [wordOpt, Option.or] using h
        rw [scanAux_cons_match ssnAt f prev c _ pos hmt hgne]
        by_cases hk : 11 ≤ a'.length + 1
        · -- the match lies entirely inside `a`
          have h11 : 11 ≤ (c :: a').length := by simp; omega
          have htake : (c :: (a' ++ (ssnStr ++ b))).take 11 = (c :: a').take 11 :=
            @List.take_append_of_le_length Char (c :: a') (ssnStr ++ b) 11 h11
          have hdrop : (c :: (a' ++ (ssnStr ++ b))).drop 11
              = ((c :: a').drop 11) ++ (ssnStr ++ b) :=
            @List.drop_append_of_le_length Char (c :: a') (ssnStr ++ b) 11 h11
          set a'' := (c :: a').drop 11 with ha''
          have ha''len : a''.length = a'.length + 1 - 11 := by
            rw [ha'']
            simp [List.length_drop]
          have hlen'' : a''.length + 11 + b.length < f := by
            rw [hk1] at hlen
            omega
          have hbd'' : wordOpt (a''.getLast?.or (some (g.getLastD c))) = false := by
            by_cases hnil : a'' = []
            · have hlen0 := congrArg List.length hnil
              simp only [List.length_nil] at hlen0
              have hgea : g = c :: a' := by
                rw [hgtake, htake]
                exact List.take_of_length_le (by simp; omega)
              have hgl : g.getLastD c = lc := by
                rw [hgea, List.getLastD_eq_getLast?, hlc]
                rfl
              rw [hnil, hgl]
              simpa [wordOpt, Option.none_or] using hlcw
            · have hsame : a''.getLast? = (c :: a').getLast? := by
                rw [ha'']
                exact getLast?_drop_ne_nil (by rw [← ha'']; exact hnil)
              rw [hsame, hlc]
              simpa [wordOpt, Option.or] using hlcw
          have hmain := ih a'' (some (g.getLastD c)) (pos + 11) hlen'' hbd''
          rw [hglen, hdrop]
          simp only [List.length_cons]
          rw [show pos + (a'.length + 1) = pos + 11 + a''.length from by omega]
          obtain ⟨hc1, hc2⟩ := hmain
          constructor
          · rw [List.countP_cons, hc1]
            rw [show ((pos, g).1 == pos + 11 + a''.length) = false from by
              show (pos == pos + 11 + a''.length) = false
              simp only [beq_eq_false_iff_ne]
              omega]
            simp
          · intro m hm'
            rcases List.mem_cons.mp hm' with rfl | hm''
            · intro heq
              exact absurd heq (by show pos ≠ pos + 11 + a''.length; omega)
            · exact hc2 m hm''
        · -- the match would overlap the `ssnStr` occurrence: impossible
          push_neg at hk
          exfalso
          have hgeq : g = (c :: a') ++ ssnStr.take (11 - (a'.length + 1)) := by
            rw [hgtake]
            rw [show (c :: (a' ++ (ssnStr ++ b))) = (c :: a') ++ (ssnStr ++ b) from rfl]
            rw [List.take_append_eq_append_take]
            rw [List.take_of_length_le (by simp; omega)]
            rw [List.take_append_of_le_length
              (by rw [show ssnStr.length = 11 from rfl]; simp; omega)]
            rw [hk1]
          have hspec := (ssnShape_spec hgshape).2
          by_cases hk4 : a'.length + 1 = 4
          · have h6 := hspec 6 (by omega)
            rw [if_pos (by omega)] at h6
            have h63 : g.getD 6 ' ' = '3' := by
              rw [hgeq]
              rw [List.getD_append_right _ _ _ _ (by simp; omega)]
              rw [hk1, hk4]
              rfl
            rw [h63] at h6
            exact absurd h6 (by decide)
          · by_cases hk7 : a'.length + 1 = 7
            · have h10 := hspec 10 (by omega)
              rw [if_neg (by omega)] at h10
              have h10d : g.getD 10 ' ' = '-' := by
                rw [hgeq]
                rw [List.getD_append_right _ _ _ _ (by simp; omega)]
                rw [hk1, hk7]
                rfl
              rw [h10d] at h10
              exact absurd h10 (by decide)
            · have hi := hspec a'.length (by omega)
              rw [if_neg (by omega)] at hi
              have hgd : g.getD a'.length ' ' = lc := by
                rw [hgeq]
                rw [List.getD_append _ _ _ _ (by simp)]
                rw [List.getD_eq_get?]
                have hget : (c :: a').get? a'.length = some lc := by
                  rw [← hlc, List.getLast?_eq_get?]
                  simp
                rw [hget]
                rfl
              rw [hgd] at hi
              exact absurd (isWordCh_of_digit hi) (by simp [hlcw])

/-- The replacement fold of one `redact_text` phase preserves the absence
of a pattern whose characters do not occur in the marker. -/
theorem fold_pyReplace_keeps_absent {p m : List Char} (hp : p ≠ []) (hm : m ≠ [])
    (hd : ∀ c ∈ p, c ∉ m) :
    ∀ (ms : List (Nat × List Char)) (s : List Char), ¬ InfixOf p s →
      ¬ InfixOf p (ms.foldl (fun cur mm => pyReplace cur mm.2 m) s) := by
  intro ms
  induction ms with
  | nil =>
    intro s hs
    exact hs
  | cons mm ms ih =>
    intro s hs
    exact ih (pyReplace s mm.2 m) (pyReplace_keeps_absent hp hm hd hs)

/-- The replacement fold preserves the presence of the marker. -/
theorem fold_pyReplace_marker {m : List Char} :
    ∀ (ms : List (Nat × List Char)) (s : List Char), InfixOf m s →
      InfixOf m (ms.foldl (fun cur mm => pyReplace cur mm.2 m) s) := by
  intro ms
  induction ms with
  | nil =>
    intro s hs
    exact hs
  | cons mm ms ih =>
    intro s hs
    apply ih
    show InfixOf m (pyReplaceAux mm.2 m (s.length + 1) s)
    rcases pyReplaceAux_eq_or_marker mm.2 m (s.length + 1) s with he | h
    · rw [he]
      exact hs
    · exact h

/-- The replacement fold preserves "the pattern or the marker occurs". -/
theorem fold_pyReplace_inv {p m : List Char} :
    ∀ (ms : List (Nat × List Char)) (s : List Char),
      InfixOf p s ∨ InfixOf m s →
      InfixOf p (ms.foldl (fun cur mm => pyReplace cur mm.2 m) s)
        ∨ InfixOf m (ms.foldl (fun cur mm => pyReplace cur mm.2 m) s) := by
  intro ms
  induction ms with
  | nil =>
    intro s hs
    exact hs
  | cons mm ms ih =>
    intro s hs
    apply ih
    show InfixOf p (pyReplaceAux mm.2 m (s.length + 1) s)
        ∨ InfixOf m (pyReplaceAux mm.2 m (s.length + 1) s)
    rcases pyReplaceAux_eq_or_marker mm.2 m (s.length + 1) s with he | h
    · rw [he]
      exact hs
    · exact Or.inr h

/-- A list whose `countP` is one and whose every satisfying member is `x`
filters to exactly `[x]`. -/
theorem filt_single {α : Type} {p : α → Bool} {l : List α} {x : α}
    (h1 : l.countP p = 1) (h2 : ∀ m ∈ l, p m = true → m = x) :
    l.filter p = [x] := by
  have hl : (l.filter p).length = 1 := by
    rw [← List.countP_eq_length_filter]
    exact h1
  obtain ⟨y, hy⟩ := List.length_eq_one.mp hl
  have hmem : y ∈ l.filter p := by
    rw [hy]
    exact List.mem_cons_self y []
  obtain ⟨hyl, hyp⟩ := List.mem_filter.mp hmem
  rw [hy, h2 y hyl hyp]

/-- First component of one `redact_text` phase. -/
theorem applyPat_fst (nm : String) (mAt : Matcher) (marker s : List Char) :
    (applyPat nm mAt marker s).1
      = (scanRe mAt s).foldl (fun cur m => pyReplace cur m.2 marker) s := rfl

/-- Second component of one `redact_text` phase. -/
theorem applyPat_snd (nm : String) (mAt : Matcher) (marker s : List Char) :
    (applyPat nm mAt marker s).2
      = (scanRe mAt s).map (fun m => (⟨nm, m.2, m.1, m.1 + m.2.length⟩ : RedMade)) := rfl

/-- The `redactions_made` list of `redact_text`, phase by phase. -/
theorem redact_text_snd (t marker : List Char) :
    (redact_text t marker).2
      = ((([] ++ (applyPat "ssn" ssnAt marker t).2)
           ++ (applyPat "phone" phoneAt marker (applyPat "ssn" ssnAt marker t).1).2)
           ++ (applyPat "email" emailAt marker
                (applyPat "phone" phoneAt marker (applyPat "ssn" ssnAt marker t).1).1).2)
           ++ (applyPat "credit_card" ccAt marker
                (applyPat "email" emailAt marker
                  (applyPat "phone" phoneAt marker
                    (applyPat "ssn" ssnAt marker t).1).1).1).2 := rfl

/-- A phase with a type tag other than `"ssn"` contributes nothing to the
`"ssn"`-filtered entry list. -/
theorem filter_ssn_other (nm : String) (hnm : (nm == "ssn") = false)
    (mAt : Matcher) (s : List Char) (k : Nat) :
    ((applyPat nm mAt markerStr s).2).filter
        (fun r => r.rtype == "ssn" && r.mstart == k) = [] := by
  rw [List.filter_eq_nil_iff]
  intro r hr
  rw [applyPat_snd] at hr
  obtain ⟨m, _, rfl⟩ := List.mem_map.mp hr
  simp [hnm]

/-- A marker present in `s` stays present through one phase. -/
theorem applyPat_fst_marker {nm : String} {mAt : Matcher} {s : List Char}
    (h : InfixOf markerStr s) : InfixOf markerStr (applyPat nm mAt markerStr s).1 :=
  fold_pyReplace_marker (scanRe mAt s) s h

/-- A pattern absent from `s`, with characters disjoint from the marker,
stays absent through one phase. -/
theorem applyPat_fst_clean {p : List Char} (hp : p ≠ [])
    (hd : ∀ c ∈ p, c ∉ markerStr) {nm : String} {mAt : Matcher} {s : List Char}
    (h : ¬ InfixOf p s) : ¬ InfixOf p (applyPat nm mAt markerStr s).1 :=
  fold_pyReplace_keeps_absent hp (by decide) hd (scanRe mAt s) s h

/-- C7 counterexample: a text containing `123-45-6789` directly after a
word character is returned by `redact_text` unchanged, with an empty
redaction list — the SSN regex of the source carries `\b` on both sides,
so an embedded occurrence is not redacted and the claim fails for it. -/
theorem redact_text_embedded_ssn_unchanged :
    InfixOf ssnStr ("a123-45-6789".toList) ∧
    redact_text ("a123-45-6789".toList) markerStr = ("a123-45-6789".toList, []) := by
  constructor
  · exact ⟨['a'], [], rfl⟩
  · rfl

/-- C7 (amended): `redact_text` redacts an occurrence of `123-45-6789`
when it is flanked by `\b` word boundaries, as the source patterns demand.
Under those boundary conditions the returned text contains the marker and
no longer contains `123-45-6789`, and the redaction list carries exactly
one `ssn` entry at that position, recording the matched text with offsets
`start = a.length` and `end = a.length + 11`. -/
theorem redact_text_ssn_boundary (a b : List Char)
    (ha : wordOpt a.getLast? = false) (hb : wordOpt b.head? = false) :
    (redact_text (a ++ ssnStr ++ b) markerStr).2.filter
        (fun r => r.rtype == "ssn" && r.mstart == a.length)
      = [⟨"ssn", ssnStr, a.length, a.length + 11⟩] ∧
    InfixOf markerStr (redact_text (a ++ ssnStr ++ b) markerStr).1 ∧
    ¬ InfixOf ssnStr (redact_text (a ++ ssnStr ++ b) markerStr).1 := by
  have htl : (a ++ ssnStr ++ b).length = a.length + (11 + b.length) := by
    rw [List.append_assoc, List.length_append, List.length_append]
    rfl
  have hsub : a ++ ssnStr ++ b = a ++ (ssnStr ++ b) := List.append_assoc a ssnStr b
  have hscan := ssn_scan_main b hb ((a ++ ssnStr ++ b).length + 1) a none 0
    (by rw [htl]; omega) (by simpa [Option.or_none] using ha)
  rw [← hsub] at hscan
  obtain ⟨hcount, hchar⟩ := hscan
  have hcount' : (scanRe ssnAt (a ++ ssnStr ++ b)).countP
      (fun m => m.1 == a.length) = 1 := by
    have hre : scanRe ssnAt (a ++ ssnStr ++ b)
        = scanAux ssnAt ((a ++ ssnStr ++ b).length + 1) none (a ++ ssnStr ++ b) 0 := rfl
    rw [hre]
    simpa using hcount
  have hchar' : ∀ m ∈ scanRe ssnAt (a ++ ssnStr ++ b),
      (m.1 == a.length) = true → m = (a.length, ssnStr) := by
    intro m hm hp
    have h1 : m.1 = a.length := by simpa using hp
    have h2 : m.2 = ssnStr := hchar m hm (by omega)
    exact Prod.ext h1 h2
  have hfilt : (scanRe ssnAt (a ++ ssnStr ++ b)).filter (fun m => m.1 == a.length)
      = [(a.length, ssnStr)] := filt_single hcount' hchar'
  have hmem : (a.length, ssnStr) ∈ scanRe ssnAt (a ++ ssnStr ++ b) := by
    have hx : (a.length, ssnStr) ∈ (scanRe ssnAt (a ++ ssnStr ++ b)).filter
        (fun m => m.1 == a.length) := by
      rw [hfilt]
      exact List.mem_cons_self _ _
    exact (List.mem_filter.mp hx).1
  obtain ⟨u, v, huv⟩ := List.append_of_mem hmem
  have hinvu := @fold_pyReplace_inv ssnStr markerStr u (a ++ ssnStr ++ b)
    (Or.inl ⟨a, b, rfl⟩)
  set tu := u.foldl (fun cur mm => pyReplace cur mm.2 markerStr) (a ++ ssnStr ++ b)
    with htu
  have hkey_marker : InfixOf markerStr (pyReplace tu ssnStr markerStr) := by
    rcases hinvu with hs | hmk
    · exact pyReplaceAux_marker_of_occurs ssnStr markerStr (by decide) (tu.length + 1) tu
        (by omega) hs
    · show InfixOf markerStr (pyReplaceAux ssnStr markerStr (tu.length + 1) tu)
      rcases pyReplaceAux_eq_or_marker ssnStr markerStr (tu.length + 1) tu with he | h
      · rw [he]
        exact hmk
      · exact h
  have hkey_clean : ¬ InfixOf ssnStr (pyReplace tu ssnStr markerStr) :=
    pyReplace_removes_pattern (by decide) (by decide) (by decide)
  have ht1eq : (applyPat "ssn" ssnAt markerStr (a ++ ssnStr ++ b)).1
      = v.foldl (fun cur mm => pyReplace cur mm.2 markerStr)
          (pyReplace tu ssnStr markerStr) := by
    rw [applyPat_fst, huv, List.foldl_append, ← htu]
    rfl
  have ht1m : InfixOf markerStr (applyPat "ssn" ssnAt markerStr (a ++ ssnStr ++ b)).1 := by
    rw [ht1eq]
    exact fold_pyReplace_marker v _ hkey_marker
  have ht1c : ¬ InfixOf ssnStr (applyPat "ssn" ssnAt markerStr (a ++ ssnStr ++ b)).1 := by
    rw [ht1eq]
    exact fold_pyReplace_keeps_absent (by decide) (by decide) (by decide) v _ hkey_clean
  have hfm : InfixOf markerStr (redact_text (a ++ ssnStr ++ b) markerStr).1 := by
    show InfixOf markerStr (applyPat "credit_card" ccAt markerStr
      (applyPat "email" emailAt markerStr
        (applyPat "phone" phoneAt markerStr
          (applyPat "ssn" ssnAt markerStr (a ++ ssnStr ++ b)).1).1).1).1
    exact applyPat_fst_marker (applyPat_fst_marker (applyPat_fst_marker ht1m))
  have hfc : ¬ InfixOf ssnStr (redact_text (a ++ ssnStr ++ b) markerStr).1 := by
    show ¬ InfixOf ssnStr (applyPat "credit_card" ccAt markerStr
      (applyPat "email" emailAt markerStr
        (applyPat "phone" phoneAt markerStr
          (applyPat "ssn" ssnAt markerStr (a ++ ssnStr ++ b)).1).1).1).1
    exact applyPat_fst_clean (by decide) (by decide)
      (applyPat_fst_clean (by decide) (by decide)
        (applyPat_fst_clean (by decide) (by decide) ht1c))
  have hent : (redact_text (a ++ ssnStr ++ b) markerStr).2.filter
      (fun r => r.rtype == "ssn" && r.mstart == a.length)
      = [⟨"ssn", ssnStr, a.length, a.length + 11⟩] := by
    rw [redact_text_snd]
    simp only [List.nil_append, List.filter_append]
    rw [filter_ssn_other "phone" (by decide) _ _ _,
        filter_ssn_other "email" (by decide) _ _ _,
        filter_ssn_other "credit_card" (by decide) _ _ _]
    simp only [List.append_nil]
    rw [applyPat_snd, List.filter_map]
    have hpf : ((fun r : RedMade => r.rtype == "ssn" && r.mstart == a.length)
        ∘ (fun m : Nat × List Char => (⟨"ssn", m.2, m.1, m.1 + m.2.length⟩ : RedMade)))
        = fun m : Nat × List Char => m.1 == a.length := by
      funext m
      simp [Function.comp]
    rw [hpf, hfilt]
    rfl
  exact ⟨hent, hfm, hfc⟩

theorem redact_text_ssn_boundary_witness :
    (redact_text ([' '] ++ ssnStr ++ []) markerStr).2.filter
        (fun r => r.rtype == "ssn" && r.mstart == [' '].length)
      = [⟨"ssn", ssnStr, [' '].length, [' '].length + 11⟩] ∧
    InfixOf markerStr (redact_text ([' '] ++ ssnStr ++ []) markerStr).1 ∧
    ¬ InfixOf ssnStr (redact_text ([' '] ++ ssnStr ++ []) markerStr).1 :=
  redact_text_ssn_boundary [' '] [] (by decide) (by decide)
